import Mathlib

/-!
Verification development for the agentic-knowledge-graph repository.

Shallow embedding of the schema-inference core (`src/agents/schema_agent.py`),
the entity-linkage engine (`src/agents/linkage_agent.py`) and the orchestrator
reset path (`src/pipeline/dynamic_builder.py` plus the Neo4j helpers in
`notebooks/tools.py`).  CSV files are modelled as header lists plus rows of
key/value pairs; the graph store is modelled as an explicit state record; the
parts that fall outside the repository (the Neo4j engine, the C Jaro-Winkler
routine) appear as explicit parameters or as state transitions matching their
documented contract.
-/

namespace AgenticKG

/-- Substring test on character lists: whether `pat` occurs contiguously inside
the second list.  Models Python's `pat in s` for strings. -/
def containsSubList (pat : List Char) : List Char → Bool
  | [] => pat.isEmpty
  | c :: rest => pat.isPrefixOf (c :: rest) || containsSubList pat rest

/-- Python's `pat in s` substring containment on strings. -/
def strContains (s pat : String) : Bool := containsSubList pat.data s.data

/-- Python's `str.lower()` (the repository's data is ASCII, where the two
agree). -/
def strLower (s : String) : String := ⟨s.data.map Char.toLower⟩

/-- Python's `str.upper()`. -/
def strUpper (s : String) : String := ⟨s.data.map Char.toUpper⟩

/-- Python's `str.strip()`: leading and trailing whitespace removed. -/
def pyStrip (s : String) : String :=
  ⟨((s.data.dropWhile Char.isWhitespace).reverse.dropWhile Char.isWhitespace).reverse⟩

/-- Python's `s.endswith(pat)`. -/
def strEndsWith (s pat : String) : Bool := pat.data.isSuffixOf s.data

/-- Python slicing `s[:-n]`: the string without its last `n` characters. -/
def strDropRight (s : String) (n : Nat) : String := ⟨s.data.take (s.data.length - n)⟩

/-- Replacement loop of `str.replace` on character lists, applied left to
right to non-overlapping occurrences; the fuel argument is the length of the
scanned list, so the recursion is structural. -/
def replaceCharsAux (pat rep : List Char) : Nat → List Char → List Char
  | _, [] => []
  | 0, s => s
  | fuel + 1, c :: rest =>
    if pat.isPrefixOf (c :: rest) then
      rep ++ replaceCharsAux pat rep fuel (List.drop (pat.length - 1) rest)
    else c :: replaceCharsAux pat rep fuel rest

/-- Python's `s.replace(pat, rep)`; every pattern this repository passes is
non-empty, and the empty-pattern case keeps `s`. -/
def strReplace (s pat rep : String) : String :=
  if pat.data.isEmpty then s
  else ⟨replaceCharsAux pat.data rep.data s.data.length s.data⟩

/-- Splitting loop of `str.split(sep)` on character lists, with the same
structural fuel. -/
def splitOnCharsAux (sep : List Char) : Nat → List Char → List Char → List (List Char)
  | _, acc, [] => [acc.reverse]
  | 0, acc, s => [acc.reverse ++ s]
  | fuel + 1, acc, c :: rest =>
    if sep.isPrefixOf (c :: rest) then
      acc.reverse :: splitOnCharsAux sep fuel [] (List.drop (sep.length - 1) rest)
    else splitOnCharsAux sep fuel (c :: acc) rest

/-- Python's `s.split(sep)` for the non-empty separators used here. -/
def strSplitOn (s sep : String) : List String :=
  if sep.data.isEmpty then [s]
  else (splitOnCharsAux sep.data s.data.length [] s.data).map (fun l => ⟨l⟩)

/-- Character-by-character model of Python's `str.title()`: an alphabetic
character is upper-cased when the previous character is non-alphabetic and
lower-cased otherwise; other characters pass through. -/
def titleChars : List Char → Bool → List Char
  | [], _ => []
  | c :: rest, prevAlpha =>
    (if c.isAlpha then (if prevAlpha then c.toLower else c.toUpper) else c) ::
      titleChars rest c.isAlpha

/-- Python's `str.title()`. -/
def pyTitle (s : String) : String := ⟨titleChars s.data false⟩

/-- Python's `len(values) == len(set(values))` uniqueness test on a sampled
column (values may be missing, hence `Option`). -/
def allDistinct : List (Option String) → Bool
  | [] => true
  | v :: rest => !rest.contains v && allDistinct rest

/-- One CSV data row, as the header→value pairs produced by `csv.DictReader`. -/
abbrev Row := List (String × String)

/-- Python's `row.get(header)`: first value bound to the key, if any. -/
def rowGet (r : Row) (k : String) : Option String :=
  (r.find? (fun p => p.1 == k)).map (fun p => p.2)

/-- A parsed CSV file: header row plus data rows. -/
structure Csv where
  headers : List String
  rows : List Row
deriving DecidableEq

/-- An input file handed to the schema agent: its basename and either its
parsed content or the exception message raised while reading it. -/
structure RawFile where
  filename : String
  content : Except String Csv

/-- The analysis dictionary built by `AutomatedSchemaAgent.analyze_csv_structure`
on the success path (all keys present). -/
structure OkAnalysis where
  file : String
  headers : List String
  id_columns : List String
  foreign_keys : List String
  properties : List String
  is_relationship_table : Bool
  entity_type : Option String
deriving DecidableEq

/-- An analysis result: the full success dictionary, or the error dictionary
(file name and exception text) which carries only empty column lists and in
particular lacks the `is_relationship_table` and `entity_type` keys. -/
inductive Analysis where
  | ok : OkAnalysis → Analysis
  | err : String → String → Analysis
deriving DecidableEq

/-- The `file` entry, present in both analysis dictionaries. -/
def Analysis.fileOf : Analysis → String
  | .ok a => a.file
  | .err f _ => f

/-- The `headers` entry ( `[]` in the error dictionary). -/
def Analysis.headersOf : Analysis → List String
  | .ok a => a.headers
  | .err _ _ => []

/-- The `id_columns` entry ( `[]` in the error dictionary). -/
def Analysis.idColumnsOf : Analysis → List String
  | .ok a => a.id_columns
  | .err _ _ => []

/-- The `foreign_keys` entry ( `[]` in the error dictionary). -/
def Analysis.foreignKeysOf : Analysis → List String
  | .ok a => a.foreign_keys
  | .err _ _ => []

/-- The `properties` entry ( `[]` in the error dictionary). -/
def Analysis.propertiesOf : Analysis → List String
  | .ok a => a.properties
  | .err _ _ => []

/-- The `error` entry: `analysis.get("error")`. -/
def Analysis.errorMsg : Analysis → Option String
  | .ok _ => none
  | .err _ e => some e

/-- Whether the (lower-cased) filename carries one of the association-table
tokens checked at lines 65 and 74-76 of `schema_agent.py`. -/
def mappingish (filenameLower : String) : Bool :=
  strContains filenameLower "mapping" || strContains filenameLower "relationship" ||
    strContains filenameLower "_to_"

/-- One iteration of the header-classification loop (lines 53-70 of
`schema_agent.py`): id-pattern columns become `id_columns` when their sampled
values are all distinct, otherwise `foreign_keys` when the file looks like a
mapping table or the name ends in `_id`. -/
def classifyStep (filenameLower : String) (sample : List Row)
    (acc : List String × List String) (h : String) : List String × List String :=
  let hl := strLower h
  if strEndsWith hl "_id" || hl == "id" then
    let values := sample.map (fun r => rowGet r h)
    if allDistinct values then (acc.1 ++ [h], acc.2)
    else if mappingish filenameLower then (acc.1, acc.2 ++ [h])
    else if strEndsWith hl "_id" then (acc.1, acc.2 ++ [h])
    else acc
  else acc

/-- The header-classification loop, returning `(id_columns, foreign_keys)`. -/
def classifyHeaders (filenameLower : String) (sample : List Row)
    (headers : List String) : List String × List String :=
  headers.foldl (classifyStep filenameLower sample) ([], [])

/-- Entity-label derivation (lines 84-89): strip `.csv`, underscores to spaces,
`title()`, drop spaces, then singularize (`ies`→`y`, else drop a trailing `s`). -/
def entityNameOf (filenameLower : String) : String :=
  let e1 := strReplace (strReplace filenameLower ".csv" "") "_" " "
  let e2 := strReplace (pyTitle e1) " " ""
  if strEndsWith e2 "ies" then strDropRight e2 3 ++ "y"
  else if strEndsWith e2 "s" then strDropRight e2 1
  else e2

/-- `AutomatedSchemaAgent.analyze_csv_structure` (lines 27-108): classify the
headers of the first 11 sampled rows, decide whether the file is a relationship
table, derive the entity label, and collect the non-id columns as properties;
an unreadable file yields the error dictionary instead. -/
def analyze_csv_structure (f : RawFile) : Analysis :=
  match f.content with
  | .error e => .err f.filename e
  | .ok csv =>
    let sample := csv.rows.take 11
    let fl := strLower f.filename
    let (ids, fks) := classifyHeaders fl sample csv.headers
    let isRel := mappingish fl || decide (2 ≤ fks.length) ||
      (decide (2 ≤ ids.length) && !(ids.any (fun c => strLower c == "id")))
    let et := if isRel then none else some (entityNameOf fl)
    let props := csv.headers.filter (fun h => !(ids.contains h) && !(fks.contains h))
    .ok { file := f.filename, headers := csv.headers, id_columns := ids,
          foreign_keys := fks, properties := props,
          is_relationship_table := isRel, entity_type := et }

/-- Python dict assignment `m[k] = v`: overwrite in place when the key exists,
otherwise append, preserving insertion order. -/
def dictInsert (m : List (String × α)) (k : String) (v : α) : List (String × α) :=
  if m.any (fun p => p.1 == k) then m.map (fun p => if p.1 == k then (k, v) else p)
  else m ++ [(k, v)]

/-- A relationship record appended by `infer_relationships` (its `type` dict key
is `relKind` here: `"relationship"` or `"reference"`). -/
structure Rel where
  relKind : String
  source_file : String
  relationship_type : String
  from_entity : String
  from_column : String
  to_entity : String
  to_column : String
  properties : List String
deriving DecidableEq

/-- First loop of `infer_relationships` (lines 116-119): the entity→id-column
map, built in analysis order; raises the missing-key error on an error analysis
dictionary, which lacks the `is_relationship_table` key. -/
def buildEntityIdMapLoop (acc : List (String × String)) :
    List Analysis → Except String (List (String × String))
  | [] => .ok acc
  | .err _ _ :: _ => .error "KeyError: is_relationship_table"
  | .ok a :: rest =>
    let acc2 :=
      if !a.is_relationship_table then
        match a.entity_type with
        | some et =>
          if et == "" then acc
          else match a.id_columns with
            | c :: _ => dictInsert acc et c
            | [] => acc
        | none => acc
      else acc
    buildEntityIdMapLoop acc2 rest

/-- `fk.lower().replace("_id", "")` (every occurrence removed). -/
def fkBase (fk : String) : String := strReplace (strLower fk) "_id" ""

/-- The inner entity-matching loop of the relationship-table branch (lines
162-172): scan the entity map in order, fill the `from` slot first (without
breaking), then the `to` slot (breaking out of the scan). -/
def scanEntities (fk fkb : String) (ents : List (String × String))
    (st : Option (String × String) × Option (String × String)) :
    Option (String × String) × Option (String × String) :=
  match ents with
  | [] => st
  | (ename, _) :: rest =>
    if strContains (strLower ename) fkb then
      match st.1 with
      | none => scanEntities fk fkb rest (some (ename, fk), st.2)
      | some _ =>
        match st.2 with
        | none => (st.1, some (ename, fk))
        | some _ => scanEntities fk fkb rest st
    else scanEntities fk fkb rest st

/-- The outer foreign-key loop of lines 162-172. -/
def matchFks (emap : List (String × String)) (fks : List String) :
    Option (String × String) × Option (String × String) :=
  fks.foldl (fun st fk => scanEntities fk (fkBase fk) emap st) (none, none)

/-- Relationship-type naming for a relationship table (lines 146-154): `.csv`
stripped, upper-cased; a `mapping` name becomes `MAPPED_TO`; the `_to_` branch
is stated as written (it compares a lower-case token against the upper-cased
name); otherwise the name is kept. -/
def relNameOf (filename : String) : String :=
  let rn := strUpper (strReplace filename ".csv" "")
  if strContains (strLower rn) "mapping" then "MAPPED_TO"
  else if strContains rn "_to_" then
    match strSplitOn rn "_TO_" with
    | p0 :: p1 :: _ => p0 ++ "_TO_" ++ p1
    | _ => "RELATES_TO"
  else strReplace rn "_" "_"

/-- Semantic-override table for reference relationships (lines 195-207). -/
def refRelType (fkb target : String) : String :=
  if strContains fkb "parent" then "PARENT_OF"
  else if strContains fkb "child" then "CHILD_OF"
  else if strContains fkb "supplier" then "SUPPLIED_BY"
  else if strContains fkb "product" then "CONTAINS"
  else if strContains fkb "assembly" then "IS_PART_OF"
  else "HAS_" ++ strUpper target

/-- The relationships appended for one success analysis (lines 122-218):
either the relationship-table branch (hard-coded `part_supplier_mapping`
special case, then name derivation and the two-slot entity match) or the
embedded-foreign-key branch (one reference per matching entity, no break). -/
def relsOfAnalysis (emap : List (String × String)) (a : OkAnalysis) : List Rel :=
  if a.is_relationship_table then
    let fks := a.foreign_keys ++ a.id_columns
    if decide (2 ≤ fks.length) then
      if strContains (strLower a.file) "part_supplier_mapping" then
        [{ relKind := "relationship", source_file := a.file,
           relationship_type := "SUPPLIES",
           from_entity := "Supplier", from_column := "supplier_id",
           to_entity := "Part", to_column := "part_id", properties := [] }]
      else
        match matchFks emap fks with
        | (some (fe, fc), some (te, tc)) =>
          [{ relKind := "relationship", source_file := a.file,
             relationship_type := relNameOf a.file,
             from_entity := fe, from_column := fc,
             to_entity := te, to_column := tc, properties := a.properties }]
        | _ => []
    else []
  else
    a.foreign_keys.foldl (fun acc fk =>
      acc ++ emap.filterMap (fun p =>
        if strContains (strLower p.1) (fkBase fk) then
          some { relKind := "reference", source_file := a.file,
                 relationship_type := refRelType (fkBase fk) p.1,
                 from_entity := a.entity_type.getD "", from_column := fk,
                 to_entity := p.1, to_column := p.2, properties := [] }
        else none)) []

/-- Second loop of `infer_relationships` (lines 122-218), appending per
analysis in order; an error analysis raises the missing-key error. -/
def relLoop (emap : List (String × String)) : List Analysis → Except String (List Rel)
  | [] => .ok []
  | .err _ _ :: _ => .error "KeyError: is_relationship_table"
  | .ok a :: rest =>
    match relLoop emap rest with
    | .error e => .error e
    | .ok rs => .ok (relsOfAnalysis emap a ++ rs)

/-- `AutomatedSchemaAgent.infer_relationships` (lines 110-220). -/
def infer_relationships (analyses : List Analysis) : Except String (List Rel) :=
  match buildEntityIdMapLoop [] analyses with
  | .error e => .error e
  | .ok emap => relLoop emap analyses

/-- A node entry of the construction plan (lines 258-264). -/
structure NodeSpec where
  source_file : String
  label : String
  unique_column_name : String
  properties : List String
deriving DecidableEq

/-- A relationship entry of the construction plan (lines 273-282). -/
structure RelSpec where
  source_file : String
  relationship_type : String
  from_node_label : String
  from_node_column : String
  to_node_label : String
  to_node_column : String
  properties : List String
deriving DecidableEq

/-- One construction-plan value. -/
inductive PlanEntry where
  | node : NodeSpec → PlanEntry
  | rel : RelSpec → PlanEntry
deriving DecidableEq

/-- The construction plan: an insertion-ordered dictionary. -/
abbrev Plan := List (String × PlanEntry)

/-- Dictionary lookup on a plan. -/
def planFind (plan : Plan) (k : String) : Option PlanEntry :=
  (plan.find? (fun p => p.1 == k)).map (fun p => p.2)

/-- Guard of the node-generation loop (line 256): not a relationship table,
truthy `entity_type`, non-empty `id_columns`. -/
def nodeEligible (a : OkAnalysis) : Bool :=
  !a.is_relationship_table &&
    (match a.entity_type with
     | some et => !(et == "")
     | none => false) &&
    !a.id_columns.isEmpty

/-- The node-plan insertion performed for one success analysis (lines
256-264): when the guard holds, the entity label is bound to a node
specification keyed by the first id column. -/
def nodePlanStep (plan : Plan) (a : OkAnalysis) : Plan :=
  if nodeEligible a then
    match a.entity_type, a.id_columns with
    | some et, c :: _ =>
      dictInsert plan et (.node
        { source_file := a.file, label := et,
          unique_column_name := c, properties := a.properties.take 20 })
    | _, _ => plan
  else plan

/-- Node-generation loop of `generate_construction_plan` (lines 255-264);
accessing `is_relationship_table` on an error analysis raises. -/
def nodeLoop : List Analysis → Plan → Except String Plan
  | [], plan => .ok plan
  | .err _ _ :: _, _ => .error "KeyError: is_relationship_table"
  | .ok a :: rest, plan => nodeLoop rest (nodePlanStep plan a)

/-- Plan key for the `i`-th relationship (line 271): the bare type name at
index 0, otherwise the type name with the index appended. -/
def relKeyFor (i : Nat) (t : String) : String :=
  if 0 < i then t ++ "_" ++ toString i else t

/-- The plan value stored for one relationship (lines 273-282). -/
def relSpecOf (r : Rel) : RelSpec :=
  { source_file := r.source_file, relationship_type := r.relationship_type,
    from_node_label := r.from_entity, from_node_column := r.from_column,
    to_node_label := r.to_entity, to_node_column := r.to_column,
    properties := r.properties.take 10 }

/-- Relationship-insertion loop of `generate_construction_plan` (lines 269-282). -/
def relFold (plan : Plan) (rels : List Rel) : Plan :=
  rels.enum.foldl
    (fun pl ir => dictInsert pl (relKeyFor ir.1 ir.2.relationship_type) (.rel (relSpecOf ir.2)))
    plan

/-- `generate_construction_plan` after the per-file analyses are collected:
node loop, then `infer_relationships`, then relationship insertion. -/
def planOfAnalyses (analyses : List Analysis) : Except String Plan :=
  match nodeLoop analyses [] with
  | .error e => .error e
  | .ok plan1 =>
    match infer_relationships analyses with
    | .error e => .error e
    | .ok rels => .ok (relFold plan1 rels)

/-- `AutomatedSchemaAgent.generate_construction_plan` (lines 222-287); the
`goal` argument is unused by the source logic and omitted. -/
def generate_construction_plan (csv_files : List RawFile) : Except String Plan :=
  planOfAnalyses (csv_files.map analyze_csv_structure)

/-! ### Entity linkage engine (`src/agents/linkage_agent.py`)

The raw Jaro-Winkler routine is the external `Levenshtein.jaro_winkler` C
function; it enters the model as an explicit parameter `jw`.  A graph node is
its internal id plus its property map. -/

/-- A graph node as seen by the linkage agent: internal id and properties. -/
structure Entity where
  id : Nat
  props : List (String × String)
deriving DecidableEq

/-- Property access on a node. -/
def propGet (e : Entity) (k : String) : Option String :=
  (e.props.find? (fun p => p.1 == k)).map (fun p => p.2)

/-- Python truthiness of an optional string: `None` and `""` are falsy. -/
def truthyOpt : Option String → Bool
  | none => false
  | some s => !(s == "")

/-- `AutomatedLinkageAgent.calculate_similarity` (lines 26-40): 0.0 when either
argument is falsy, else lower-case and strip both, 1.0 on equality, otherwise
the external Jaro-Winkler score. -/
def calculate_similarity (jw : String → String → ℚ) (s1 s2 : Option String) : ℚ :=
  if !(truthyOpt s1) || !(truthyOpt s2) then 0
  else
    let a := pyStrip (strLower (s1.getD ""))
    let b := pyStrip (strLower (s2.getD ""))
    if a == b then 1 else jw a b

/-- Subject-side match value selection (lines 80-84): the `name` property when
present, else the `match_field` property. -/
def subjectValue (e : Entity) (match_field : String) : Option String :=
  if (propGet e "name").isSome then propGet e "name"
  else if (propGet e match_field).isSome then propGet e match_field
  else none

/-- Domain-side match value selection (lines 90-99): `match_field`, else
`match_field.lower() + "_name"`, else `name`. -/
def domainValue (e : Entity) (match_field : String) : Option String :=
  if (propGet e match_field).isSome then propGet e match_field
  else if (propGet e (strLower match_field ++ "_name")).isSome then
    propGet e (strLower match_field ++ "_name")
  else if (propGet e "name").isSome then propGet e "name"
  else none

/-- One step of the best-match scan (lines 90-105): score a truthy candidate
value and keep it when it strictly beats the best so far. -/
def bestStep (jw : String → String → ℚ) (sv : Option String) (match_field : String)
    (best : Option Entity × ℚ) (d : Entity) : Option Entity × ℚ :=
  let dv := domainValue d match_field
  if truthyOpt dv then
    let score := calculate_similarity jw sv dv
    if best.2 < score then (some d, score) else best
  else best

/-- `AutomatedLinkageAgent.find_best_match` (lines 68-107): `(None, 0.0)` when
the subject has no truthy match value, else the strict-best candidate over the
domain population starting from `(None, 0.0)`. -/
def find_best_match (jw : String → String → ℚ) (subject : Entity)
    (domain : List Entity) (match_field : String) : Option Entity × ℚ :=
  let sv := subjectValue subject match_field
  if !(truthyOpt sv) then (none, 0)
  else domain.foldl (bestStep jw sv match_field) (none, 0)

/-- A `CORRESPONDS_TO` edge as written by `create_correspondence` (lines
109-129); the store's `MERGE` is modelled as an append to the edge list. -/
structure Edge where
  subject_id : Nat
  domain_id : Nat
  similarity : ℚ
deriving DecidableEq

/-- The per-type result dictionary of `resolve_entities_for_type` (lines
136-141): the unresolved count is a separate field from the error list. -/
structure ResolveResults where
  rtype : String
  resolved : Nat
  unresolved : Nat
  errors : List String
deriving DecidableEq

/-- Match field selection (line 159). -/
def matchFieldFor (entity_type : String) : String :=
  if entity_type == "Product" then "product" else "name"

/-- The edge the loop body would write for one subject: present exactly when a
best match exists and its score clears the threshold (lines 171-177). -/
def stepEdge (jw : String → String → ℚ) (threshold : ℚ) (domain : List Entity)
    (match_field : String) (s : Entity) : Option Edge :=
  match find_best_match jw s domain match_field with
  | (some b, score) => if threshold ≤ score then some ⟨s.id, b.id, score⟩ else none
  | (none, _) => none

/-- The per-subject loop body of `resolve_entities_for_type` (lines 162-189),
threading the result counters and the store's edge list; the store write is
modelled as always succeeding. -/
def resolveStep (jw : String → String → ℚ) (threshold : ℚ) (domain : List Entity)
    (match_field : String) (acc : ResolveResults × List Edge) (s : Entity) :
    ResolveResults × List Edge :=
  match find_best_match jw s domain match_field with
  | (some b, score) =>
    if threshold ≤ score then
      ({ acc.1 with resolved := acc.1.resolved + 1 }, acc.2 ++ [⟨s.id, b.id, score⟩])
    else ({ acc.1 with unresolved := acc.1.unresolved + 1 }, acc.2)
  | (none, _) => ({ acc.1 with unresolved := acc.1.unresolved + 1 }, acc.2)

/-- `AutomatedLinkageAgent.resolve_entities_for_type` (lines 131-193), with the
two graph populations passed explicitly (the queries of `get_entities_by_type`
are reads of the external store): early return on an empty subject population,
all-unresolved on an empty domain population, else the per-subject loop.
Returns the result dictionary and the correspondence edges written. -/
def resolve_entities_for_type (jw : String → String → ℚ) (threshold : ℚ)
    (entity_type : String) (subject_entities domain_entities : List Entity) :
    ResolveResults × List Edge :=
  if subject_entities.isEmpty then
    ({ rtype := entity_type, resolved := 0, unresolved := 0, errors := [] }, [])
  else if domain_entities.isEmpty then
    ({ rtype := entity_type, resolved := 0,
       unresolved := subject_entities.length, errors := [] }, [])
  else
    subject_entities.foldl
      (resolveStep jw threshold domain_entities (matchFieldFor entity_type))
      ({ rtype := entity_type, resolved := 0, unresolved := 0, errors := [] }, [])

/-! ### Graph store reset (`notebooks/tools.py`, `src/pipeline/dynamic_builder.py`)

The Neo4j store is modelled as an explicit state: its constraint names, index
names and data records.  `drop_neo4j_indexes` lists the constraint names and
drops each, then does the same for indexes; `clear_neo4j_data` deletes all
nodes and relationships. -/

/-- The graph store state. -/
structure GraphStore where
  constraints : List String
  indexes : List String
  data : List Nat
deriving DecidableEq

/-- The constraint-dropping loop of `drop_neo4j_indexes` (tools.py lines 76-86). -/
def dropConstraintsLoop : List String → GraphStore → GraphStore
  | [], g => g
  | n :: rest, g => dropConstraintsLoop rest { g with constraints := g.constraints.erase n }

/-- The index-dropping loop of `drop_neo4j_indexes` (tools.py lines 88-98). -/
def dropIndexesLoop : List String → GraphStore → GraphStore
  | [], g => g
  | n :: rest, g => dropIndexesLoop rest { g with indexes := g.indexes.erase n }

/-- `drop_neo4j_indexes` (tools.py lines 70-100): snapshot the constraint
names and drop each, then snapshot and drop every index. -/
def drop_neo4j_indexes (g : GraphStore) : String × GraphStore :=
  let g1 := dropConstraintsLoop g.constraints g
  let g2 := dropIndexesLoop g1.indexes g1
  ("success", g2)

/-- `clear_neo4j_data` (tools.py lines 102-117): detach-delete every node. -/
def clear_neo4j_data (g : GraphStore) : String × GraphStore :=
  ("success", { g with data := [] })

/-- The result dictionary of `DynamicKnowledgeGraphBuilder.reset_graph`. -/
structure ResetOutcome where
  status : String
  indexes_dropped : Option String
  data_cleared : Option String
deriving DecidableEq

/-- `DynamicKnowledgeGraphBuilder.reset_graph` (dynamic_builder.py lines
94-116): without confirmation return an error result and leave the store
untouched; with confirmation drop indexes/constraints, then clear data. -/
def reset_graph (confirm : Bool) (g : GraphStore) : ResetOutcome × GraphStore :=
  if !confirm then
    ({ status := "error", indexes_dropped := none, data_cleared := none }, g)
  else
    let (ds, g1) := drop_neo4j_indexes g
    let (cs, g2) := clear_neo4j_data g1
    ({ status := "success", indexes_dropped := some ds, data_cleared := some cs }, g2)

/-- The store-effect skeleton of `build_complete_graph` (dynamic_builder.py
lines 354-420): when `reset` is set, `reset_graph(confirm=True)` runs first,
and only then do the pipeline phases (modelled as injected store transformers,
since their bodies call external agents) run in order. -/
def build_complete_graph (reset : Bool) (phases : List (GraphStore → GraphStore))
    (g : GraphStore) : GraphStore :=
  let g0 := if reset then (reset_graph true g).2 else g
  phases.foldl (fun s p => p s) g0

/-! ### Derived notions and concrete scenario inputs used in the statements -/

/-- Whether a plan entry is a node specification. -/
def PlanEntry.isNode : PlanEntry → Bool
  | .node _ => true
  | .rel _ => false

/-- Whether a plan entry is a relationship specification. -/
def PlanEntry.isRelEntry : PlanEntry → Bool
  | .node _ => false
  | .rel _ => true

/-- The id-pattern guard of line 58 (`*_id` suffix or bare `id`). -/
def idPattern (h : String) : Bool :=
  strEndsWith (strLower h) "_id" || strLower h == "id"

/-- Column classified into `id_columns`: id pattern and all sampled values
distinct. -/
def pkCond (filenameLower : String) (sample : List Row) (h : String) : Bool :=
  idPattern h && allDistinct (sample.map (fun r => rowGet r h))

/-- Column classified into `foreign_keys`: id pattern, duplicated sampled
values, and a mapping-style filename or an `_id` suffix. -/
def fkCond (filenameLower : String) (sample : List Row) (h : String) : Bool :=
  idPattern h && !allDistinct (sample.map (fun r => rowGet r h)) &&
    (mappingish filenameLower || strEndsWith (strLower h) "_id")

/-- The node-plan entry the node loop inserts for an eligible analysis. -/
def nodeEntryOf (a : OkAnalysis) : String × PlanEntry :=
  (a.entity_type.getD "",
   .node { source_file := a.file, label := a.entity_type.getD "",
           unique_column_name := a.id_columns.headD "",
           properties := a.properties.take 20 })

/-- `products.csv` with columns `product_id,product_name` and the given rows. -/
def productsFile (rp : List Row) : RawFile :=
  ⟨"products.csv", .ok ⟨["product_id", "product_name"], rp⟩⟩

/-- `suppliers.csv` with columns `supplier_id,name` and the given rows. -/
def suppliersFile (rs : List Row) : RawFile :=
  ⟨"suppliers.csv", .ok ⟨["supplier_id", "name"], rs⟩⟩

/-- `product_supplier_mapping.csv` with columns `product_id,supplier_id`. -/
def mappingFile (rm : List Row) : RawFile :=
  ⟨"product_supplier_mapping.csv", .ok ⟨["product_id", "supplier_id"], rm⟩⟩

/-- The construction plan the end-to-end scenario of the spec must produce. -/
def c1Plan : Plan :=
  [("Product", .node ⟨"products.csv", "Product", "product_id", ["product_name"]⟩),
   ("Supplier", .node ⟨"suppliers.csv", "Supplier", "supplier_id", ["name"]⟩),
   ("MAPPED_TO", .rel ⟨"product_supplier_mapping.csv", "MAPPED_TO",
      "Product", "product_id", "Supplier", "supplier_id", []⟩)]

/-- An unreadable input file (reading it raised an exception). -/
def brokenFile : RawFile := ⟨"broken.csv", .error "unreadable"⟩

/-- An entity-like file with a single non-id column. -/
def itemsFile : RawFile := ⟨"items.csv", .ok ⟨["name"], [[("name", "a")]]⟩⟩

/-- A file whose single column `part_key` holds distinct sampled values. -/
def partsKeyFile : RawFile :=
  ⟨"parts.csv", .ok ⟨["part_key"], [[("part_key", "a")], [("part_key", "b")]]⟩⟩

/-- A mapping-named file whose bare `id` column holds duplicated values. -/
def xMappingFile : RawFile :=
  ⟨"x_mapping.csv", .ok ⟨["id"], [[("id", "a")], [("id", "a")]]⟩⟩

/-- A file with exactly one column named `id` holding only unique values. -/
def usersFile : RawFile :=
  ⟨"users.csv", .ok ⟨["id"], [[("id", "1")], [("id", "2")]]⟩⟩

/-- Three entity files whose foreign keys yield two relationships with two
distinct type names (`SUPPLIED_BY` and `CONTAINS`). -/
def c8Files : List RawFile :=
  [⟨"suppliers.csv", .ok ⟨["supplier_id", "name"],
      [[("supplier_id", "s1"), ("name", "Acme")]]⟩⟩,
   ⟨"products.csv", .ok ⟨["product_id", "supplier_id"],
      [[("product_id", "p1"), ("supplier_id", "s1")],
       [("product_id", "p2"), ("supplier_id", "s1")]]⟩⟩,
   ⟨"parts.csv", .ok ⟨["part_id", "product_id"],
      [[("part_id", "t1"), ("product_id", "p1")],
       [("part_id", "t2"), ("product_id", "p1")]]⟩⟩]

/-- The plan generated for `c8Files`. -/
def c8Plan : Plan :=
  [("Supplier", .node ⟨"suppliers.csv", "Supplier", "supplier_id", ["name"]⟩),
   ("Product", .node ⟨"products.csv", "Product", "product_id", []⟩),
   ("Part", .node ⟨"parts.csv", "Part", "part_id", []⟩),
   ("SUPPLIED_BY", .rel ⟨"products.csv", "SUPPLIED_BY",
      "Product", "supplier_id", "Supplier", "supplier_id", []⟩),
   ("CONTAINS_1", .rel ⟨"parts.csv", "CONTAINS",
      "Part", "product_id", "Product", "product_id", []⟩)]

/-- A trivial raw-similarity function standing in for the external
Jaro-Winkler routine in concrete evaluations. -/
def jw0 : String → String → ℚ := fun _ _ => 0

/-- Subject-graph entity of the spec's linkage scenario. -/
def stockholmSubject : Entity := ⟨1, [("name", "Stockholm Chair")]⟩

/-- Domain-graph entity of the spec's linkage scenario (trailing space, lower
case). -/
def stockholmDomain : Entity := ⟨2, [("name", "stockholm chair ")]⟩

/-- A subject entity whose name shares nothing with the domain candidates. -/
def abcEntity : Entity := ⟨1, [("name", "abc")]⟩

/-- A domain entity used as a non-matching candidate. -/
def xyzEntity : Entity := ⟨2, [("name", "xyz")]⟩

/-- A subject entity with no `name` and no match-field property. -/
def blankEntity : Entity := ⟨3, [("note", "x")]⟩

/-- A first inferred relationship with type name `T0`. -/
def relT0 : Rel := ⟨"reference", "f.csv", "T0", "A", "a_id", "B", "b_id", []⟩

/-- A second inferred relationship with the distinct type name `T1`. -/
def relT1 : Rel := ⟨"reference", "g.csv", "T1", "C", "c_id", "D", "d_id", []⟩

/-! ## Dictionary lemmas -/

theorem find_replace_self {α : Type} (m : List (String × α)) (k : String) (v : α)
    (h : m.any (fun p => p.1 == k) = true) :
    (m.map (fun p => if p.1 == k then (k, v) else p)).find? (fun p => p.1 == k) =
      some (k, v) := by
  induction m with
  | nil => simp at h
  | cons p rest ih =>
    rw [List.map_cons]
    by_cases hp : (p.1 == k) = true
    · rw [if_pos hp, List.find?_cons_of_pos _ (by simp)]
    · rw [if_neg hp, List.find?_cons_of_neg _ (by simp [hp])]
      rw [List.any_cons] at h
      rcases Bool.or_eq_true_iff.mp h with hh | hh
      · exact absurd hh hp
      · exact ih hh

theorem find_append_self {α : Type} (m : List (String × α)) (k : String) (v : α)
    (h : m.any (fun p => p.1 == k) = false) :
    (m ++ [(k, v)]).find? (fun p => p.1 == k) = some (k, v) := by
  induction m with
  | nil => exact List.find?_cons_of_pos _ (by simp)
  | cons p rest ih =>
    rw [List.any_cons, Bool.or_eq_false_iff] at h
    rw [List.cons_append, List.find?_cons_of_neg _ (by simp [h.1])]
    exact ih h.2

theorem dictInsert_find_self {α : Type} (m : List (String × α)) (k : String) (v : α) :
    (dictInsert m k v).find? (fun p => p.1 == k) = some (k, v) := by
  unfold dictInsert
  by_cases h : m.any (fun p => p.1 == k) = true
  · rw [if_pos h]; exact find_replace_self m k v h
  · rw [if_neg h]
    exact find_append_self m k v (Bool.eq_false_iff.mpr h)

theorem dictInsert_find_other {α : Type} (m : List (String × α)) (k : String) (v : α)
    (j : String) (hne : (k == j) = false) :
    (dictInsert m k v).find? (fun p => p.1 == j) = m.find? (fun p => p.1 == j) := by
  unfold dictInsert
  by_cases h : m.any (fun p => p.1 == k) = true
  · rw [if_pos h]
    clear h
    induction m with
    | nil => rfl
    | cons p rest ih =>
      rw [List.map_cons]
      by_cases hp : (p.1 == k) = true
      · have hp1 : p.1 = k := eq_of_beq hp
        rw [if_pos hp, List.find?_cons_of_neg _ (by simp [hne]),
          List.find?_cons_of_neg _ (by simp [hp1, hne]), ih]
      · rw [if_neg hp]
        by_cases hq : (p.1 == j) = true
        · rw [List.find?_cons_of_pos _ (by simp [hq]),
            List.find?_cons_of_pos _ (by simp [hq])]
        · rw [List.find?_cons_of_neg _ (by simp [hq]),
            List.find?_cons_of_neg _ (by simp [hq]), ih]
  · rw [if_neg h]
    induction m with
    | nil => exact List.find?_cons_of_neg _ (by simp [hne])
    | cons p rest ih =>
      rw [List.cons_append]
      by_cases hq : (p.1 == j) = true
      · rw [List.find?_cons_of_pos _ (by simp [hq]),
          List.find?_cons_of_pos _ (by simp [hq])]
      · rw [List.find?_cons_of_neg _ (by simp [hq]),
          List.find?_cons_of_neg _ (by simp [hq])]
        refine ih ?_
        intro hr
        rw [List.any_cons] at h
        exact h (by rw [hr, Bool.or_true])

theorem planFind_dictInsert_self (m : Plan) (k : String) (v : PlanEntry) :
    planFind (dictInsert m k v) k = some v := by
  unfold planFind
  rw [dictInsert_find_self]
  rfl

theorem planFind_dictInsert_other (m : Plan) (k : String) (v : PlanEntry)
    (j : String) (hne : (k == j) = false) :
    planFind (dictInsert m k v) j = planFind m j := by
  unfold planFind
  rw [dictInsert_find_other m k v j hne]

theorem dictInsert_keys_of_mem {α : Type} (m : List (String × α)) (k : String) (v : α)
    (h : m.any (fun p => p.1 == k) = true) :
    (dictInsert m k v).map Prod.fst = m.map Prod.fst := by
  unfold dictInsert
  rw [if_pos h]
  clear h
  induction m with
  | nil => rfl
  | cons p rest ih =>
    rw [List.map_cons, List.map_cons, List.map_cons]
    by_cases hp : (p.1 == k) = true
    · have hp1 : p.1 = k := eq_of_beq hp
      rw [if_pos hp, ih]
      simp [hp1]
    · rw [if_neg hp, ih]

theorem dictInsert_keys_of_fresh {α : Type} (m : List (String × α)) (k : String) (v : α)
    (h : m.any (fun p => p.1 == k) = false) :
    (dictInsert m k v).map Prod.fst = m.map Prod.fst ++ [k] := by
  unfold dictInsert
  rw [if_neg (by simp [h])]
  simp

theorem not_mem_keys_of_any_false {α : Type} (m : List (String × α)) (k : String)
    (h : m.any (fun p => p.1 == k) = false) : k ∉ m.map Prod.fst := by
  intro hmem
  rcases List.mem_map.mp hmem with ⟨p, hp, hfst⟩
  have hany : m.any (fun q => q.1 == k) = true :=
    List.any_eq_true.mpr ⟨p, hp, by simp [hfst]⟩
  rw [hany] at h
  cases h

theorem dictInsert_keys_nodup {α : Type} (m : List (String × α)) (k : String) (v : α)
    (h : (m.map Prod.fst).Nodup) : ((dictInsert m k v).map Prod.fst).Nodup := by
  by_cases hk : m.any (fun p => p.1 == k) = true
  · rw [dictInsert_keys_of_mem m k v hk]; exact h
  · have hk2 : m.any (fun p => p.1 == k) = false := Bool.eq_false_iff.mpr hk
    rw [dictInsert_keys_of_fresh m k v hk2]
    have hnm : k ∉ m.map Prod.fst := not_mem_keys_of_any_false m k hk2
    simp [List.nodup_append, h, hnm]

/-! ## Graph-store reset lemmas and claim C9 -/

theorem dropConstraintsLoop_spec :
    ∀ (l : List String) (g : GraphStore), g.constraints = l →
      dropConstraintsLoop l g = { g with constraints := [] } := by
  intro l
  induction l with
  | nil =>
    intro g hg
    obtain ⟨c, i, d⟩ := g
    have hc : c = [] := hg
    subst hc
    rfl
  | cons n rest ih =>
    intro g hg
    show dropConstraintsLoop rest { g with constraints := g.constraints.erase n } =
      { g with constraints := [] }
    rw [hg, List.erase_cons_head]
    exact ih { g with constraints := rest } rfl

theorem dropIndexesLoop_spec :
    ∀ (l : List String) (g : GraphStore), g.indexes = l →
      dropIndexesLoop l g = { g with indexes := [] } := by
  intro l
  induction l with
  | nil =>
    intro g hg
    obtain ⟨c, i, d⟩ := g
    have hi : i = [] := hg
    subst hi
    rfl
  | cons n rest ih =>
    intro g hg
    show dropIndexesLoop rest { g with indexes := g.indexes.erase n } =
      { g with indexes := [] }
    rw [hg, List.erase_cons_head]
    exact ih { g with indexes := rest } rfl

theorem reset_graph_true_eq (g : GraphStore) :
    reset_graph true g =
      (⟨"success", some "success", some "success"⟩, ⟨[], [], []⟩) := by
  have hdropC : dropConstraintsLoop g.constraints g = { g with constraints := [] } :=
    dropConstraintsLoop_spec g.constraints g rfl
  have hdropI : dropIndexesLoop ({ g with constraints := ([] : List String) }).indexes
      { g with constraints := ([] : List String) } =
      { g with constraints := [], indexes := [] } :=
    dropIndexesLoop_spec _ _ rfl
  simp only [reset_graph, Bool.not_true, Bool.false_eq_true, if_false,
    drop_neo4j_indexes, clear_neo4j_data, hdropC, hdropI]

/-- C9: `reset_graph` without confirmation returns an error-status result and
leaves the store (data, indexes, constraints) untouched; with confirmation it
empties the index and constraint definitions and clears the data, and in
`build_complete_graph` this wiped store is the one every pipeline phase
subsequently runs on. -/
theorem C9_reset_requires_confirmation (g : GraphStore)
    (phases : List (GraphStore → GraphStore)) :
    (reset_graph false g).1.status = "error" ∧
    (reset_graph false g).2 = g ∧
    (reset_graph true g).1.status = "success" ∧
    (reset_graph true g).2 = ⟨[], [], []⟩ ∧
    build_complete_graph true phases g =
      phases.foldl (fun s p => p s) ⟨[], [], []⟩ := by
  refine ⟨rfl, rfl, ?_, ?_, ?_⟩
  · rw [reset_graph_true_eq]
  · rw [reset_graph_true_eq]
  · show phases.foldl (fun s p => p s) (reset_graph true g).2 = _
    rw [reset_graph_true_eq]

/-! ## Linkage-engine lemmas -/

theorem stepEdge_domain_nil (jw : String → String → ℚ) (th : ℚ) (mf : String)
    (s : Entity) : stepEdge jw th [] mf s = none := by
  unfold stepEdge find_best_match
  by_cases hsv : truthyOpt (subjectValue s mf) = true
  · simp [hsv, List.foldl]
  · simp [Bool.eq_false_iff.mpr hsv]

theorem resolveStep_eq (jw : String → String → ℚ) (th : ℚ) (domain : List Entity)
    (mf : String) (acc : ResolveResults × List Edge) (s : Entity) :
    resolveStep jw th domain mf acc s =
      match stepEdge jw th domain mf s with
      | some e => ({ acc.1 with resolved := acc.1.resolved + 1 }, acc.2 ++ [e])
      | none => ({ acc.1 with unresolved := acc.1.unresolved + 1 }, acc.2) := by
  unfold resolveStep stepEdge
  cases hfb : find_best_match jw s domain mf with
  | mk ob sc =>
    cases ob with
    | some b => by_cases hth : th ≤ sc <;> simp [hth]
    | none => rfl

theorem resolveFold_resolved (jw : String → String → ℚ) (th : ℚ)
    (domain : List Entity) (mf : String) :
    ∀ (l : List Entity) (acc : ResolveResults × List Edge),
      (l.foldl (resolveStep jw th domain mf) acc).1.resolved =
        acc.1.resolved +
          (l.filter (fun s => (stepEdge jw th domain mf s).isSome)).length := by
  intro l
  induction l with
  | nil => intro acc; simp
  | cons s rest ih =>
    intro acc
    rw [List.foldl_cons, ih, resolveStep_eq]
    cases hse : stepEdge jw th domain mf s with
    | some e => simp [List.filter_cons, hse, Nat.add_assoc, Nat.add_comm 1]
    | none => simp [List.filter_cons, hse]

theorem resolveFold_unresolved (jw : String → String → ℚ) (th : ℚ)
    (domain : List Entity) (mf : String) :
    ∀ (l : List Entity) (acc : ResolveResults × List Edge),
      (l.foldl (resolveStep jw th domain mf) acc).1.unresolved =
        acc.1.unresolved +
          (l.filter (fun s => (stepEdge jw th domain mf s).isNone)).length := by
  intro l
  induction l with
  | nil => intro acc; simp
  | cons s rest ih =>
    intro acc
    rw [List.foldl_cons, ih, resolveStep_eq]
    cases hse : stepEdge jw th domain mf s with
    | some e => simp [List.filter_cons, hse]
    | none => simp [List.filter_cons, hse, Nat.add_assoc, Nat.add_comm 1]

theorem resolveFold_rtype (jw : String → String → ℚ) (th : ℚ)
    (domain : List Entity) (mf : String) :
    ∀ (l : List Entity) (acc : ResolveResults × List Edge),
      (l.foldl (resolveStep jw th domain mf) acc).1.rtype = acc.1.rtype := by
  intro l
  induction l with
  | nil => intro acc; rfl
  | cons s rest ih =>
    intro acc
    rw [List.foldl_cons, ih, resolveStep_eq]
    cases stepEdge jw th domain mf s <;> rfl

theorem resolveFold_errors (jw : String → String → ℚ) (th : ℚ)
    (domain : List Entity) (mf : String) :
    ∀ (l : List Entity) (acc : ResolveResults × List Edge),
      (l.foldl (resolveStep jw th domain mf) acc).1.errors = acc.1.errors := by
  intro l
  induction l with
  | nil => intro acc; rfl
  | cons s rest ih =>
    intro acc
    rw [List.foldl_cons, ih, resolveStep_eq]
    cases stepEdge jw th domain mf s <;> rfl

theorem resolveFold_edges (jw : String → String → ℚ) (th : ℚ)
    (domain : List Entity) (mf : String) :
    ∀ (l : List Entity) (acc : ResolveResults × List Edge),
      (l.foldl (resolveStep jw th domain mf) acc).2 =
        acc.2 ++ l.filterMap (stepEdge jw th domain mf) := by
  intro l
  induction l with
  | nil => intro acc; simp
  | cons s rest ih =>
    intro acc
    rw [List.foldl_cons, ih, resolveStep_eq]
    cases hse : stepEdge jw th domain mf s with
    | some e => simp [List.filterMap_cons, hse]
    | none => simp [List.filterMap_cons, hse]

theorem resolve_unresolved_eq (jw : String → String → ℚ) (th : ℚ) (et : String)
    (subjects domain : List Entity) :
    (resolve_entities_for_type jw th et subjects domain).1.unresolved =
      (subjects.filter
        (fun s => (stepEdge jw th domain (matchFieldFor et) s).isNone)).length := by
  unfold resolve_entities_for_type
  by_cases hs : subjects.isEmpty = true
  · rw [if_pos hs]
    rw [List.isEmpty_iff.mp hs]
    rfl
  · rw [if_neg hs]
    by_cases hd : domain.isEmpty = true
    · rw [if_pos hd]
      rw [List.isEmpty_iff.mp hd]
      simp [stepEdge_domain_nil]
    · rw [if_neg hd]
      rw [resolveFold_unresolved]
      simp

theorem resolve_errors_eq (jw : String → String → ℚ) (th : ℚ) (et : String)
    (subjects domain : List Entity) :
    (resolve_entities_for_type jw th et subjects domain).1.errors = [] := by
  unfold resolve_entities_for_type
  by_cases hs : subjects.isEmpty = true
  · rw [if_pos hs]
  · rw [if_neg hs]
    by_cases hd : domain.isEmpty = true
    · rw [if_pos hd]
    · rw [if_neg hd]
      rw [resolveFold_errors]

theorem resolve_edges_eq (jw : String → String → ℚ) (th : ℚ) (et : String)
    (subjects domain : List Entity) :
    (resolve_entities_for_type jw th et subjects domain).2 =
      subjects.filterMap (stepEdge jw th domain (matchFieldFor et)) := by
  unfold resolve_entities_for_type
  by_cases hs : subjects.isEmpty = true
  · rw [if_pos hs]
    rw [List.isEmpty_iff.mp hs]
    rfl
  · rw [if_neg hs]
    by_cases hd : domain.isEmpty = true
    · rw [if_pos hd]
      rw [List.isEmpty_iff.mp hd]
      simp [stepEdge_domain_nil]
    · rw [if_neg hd]
      rw [resolveFold_edges]
      simp

theorem resolve_resolved_eq (jw : String → String → ℚ) (th : ℚ) (et : String)
    (subjects domain : List Entity) :
    (resolve_entities_for_type jw th et subjects domain).1.resolved =
      (subjects.filter
        (fun s => (stepEdge jw th domain (matchFieldFor et) s).isSome)).length := by
  unfold resolve_entities_for_type
  by_cases hs : subjects.isEmpty = true
  · rw [if_pos hs]
    rw [List.isEmpty_iff.mp hs]
    rfl
  · rw [if_neg hs]
    by_cases hd : domain.isEmpty = true
    · rw [if_pos hd]
      rw [List.isEmpty_iff.mp hd]
      simp [stepEdge_domain_nil]
    · rw [if_neg hd]
      rw [resolveFold_resolved]
      simp

theorem stepEdge_eq_ite (jw : String → String → ℚ) (th : ℚ)
    (domain : List Entity) (mf : String) (s : Entity) (b : Entity) (sc : ℚ)
    (hfb : find_best_match jw s domain mf = (some b, sc)) :
    stepEdge jw th domain mf s =
      if th ≤ sc then some ⟨s.id, b.id, sc⟩ else none := by
  unfold stepEdge
  rw [hfb]

theorem stepEdge_of_none (jw : String → String → ℚ) (th : ℚ)
    (domain : List Entity) (mf : String) (s : Entity) (sc : ℚ)
    (hfb : find_best_match jw s domain mf = (none, sc)) :
    stepEdge jw th domain mf s = none := by
  unfold stepEdge
  rw [hfb]

theorem stepEdge_some_subject_id (jw : String → String → ℚ) (th : ℚ)
    (domain : List Entity) (mf : String) (t : Entity) (e : Edge)
    (h : stepEdge jw th domain mf t = some e) : e.subject_id = t.id := by
  rcases hfb : find_best_match jw t domain mf with ⟨ob, sc⟩
  cases ob with
  | some b =>
    rw [stepEdge_eq_ite jw th domain mf t b sc hfb] at h
    by_cases hth : th ≤ sc
    · rw [if_pos hth] at h
      injection h with h2
      rw [← h2]
    · rw [if_neg hth] at h
      simp at h
  | none =>
    rw [stepEdge_of_none jw th domain mf t sc hfb] at h
    simp at h

theorem stepEdge_none_of_low (jw : String → String → ℚ) (th : ℚ)
    (domain : List Entity) (mf : String) (s : Entity)
    (hlow : (find_best_match jw s domain mf).2 < th) :
    stepEdge jw th domain mf s = none := by
  rcases hfb : find_best_match jw s domain mf with ⟨ob, sc⟩
  rw [hfb] at hlow
  cases ob with
  | some b =>
    rw [stepEdge_eq_ite jw th domain mf s b sc hfb]
    exact if_neg (not_le.mpr hlow)
  | none => exact stepEdge_of_none jw th domain mf s sc hfb

theorem unresolved_of_stepEdge_none (jw : String → String → ℚ) (th : ℚ)
    (et : String) (subjects domain : List Entity) (s : Entity)
    (hs : s ∈ subjects) (hid : (subjects.map Entity.id).Nodup)
    (hnone : stepEdge jw th domain (matchFieldFor et) s = none) :
    (∀ e ∈ (resolve_entities_for_type jw th et subjects domain).2,
       e.subject_id ≠ s.id) ∧
    (resolve_entities_for_type jw th et subjects domain).1.unresolved =
      (resolve_entities_for_type jw th et (subjects.erase s) domain).1.unresolved
        + 1 ∧
    (resolve_entities_for_type jw th et subjects domain).1.errors = [] := by
  refine ⟨?_, ?_, resolve_errors_eq jw th et subjects domain⟩
  · intro e he
    rw [resolve_edges_eq] at he
    rcases List.mem_filterMap.mp he with ⟨t, ht, hte⟩
    intro heq
    have hts : t.id = s.id := by
      rw [← stepEdge_some_subject_id jw th domain (matchFieldFor et) t e hte]
      exact heq
    have : t = s := List.inj_on_of_nodup_map hid ht hs hts
    rw [this, hnone] at hte
    cases hte
  · rw [resolve_unresolved_eq, resolve_unresolved_eq]
    have hperm : List.Perm subjects (s :: subjects.erase s) :=
      List.perm_cons_erase hs
    have hfil := hperm.filter
      (fun t => (stepEdge jw th domain (matchFieldFor et) t).isNone)
    rw [hfil.length_eq, List.filter_cons]
    simp [hnone]

/-! ## Best-match lemmas -/

theorem calc_le_one (jw : String → String → ℚ) (hjw : ∀ a b, jw a b ≤ 1)
    (s1 s2 : Option String) : calculate_similarity jw s1 s2 ≤ 1 := by
  unfold calculate_similarity
  dsimp only
  split_ifs
  · norm_num
  · exact le_refl 1
  · exact hjw _ _

theorem bestStep_mono (jw : String → String → ℚ) (sv : Option String)
    (mf : String) (acc : Option Entity × ℚ) (d : Entity) :
    acc.2 ≤ (bestStep jw sv mf acc d).2 := by
  unfold bestStep
  dsimp only
  split_ifs with h1 h2
  · exact le_of_lt h2
  · exact le_refl _
  · exact le_refl _

theorem bestStep_le_one (jw : String → String → ℚ) (hjw : ∀ a b, jw a b ≤ 1)
    (sv : Option String) (mf : String) (acc : Option Entity × ℚ) (d : Entity)
    (hacc : acc.2 ≤ 1) : (bestStep jw sv mf acc d).2 ≤ 1 := by
  unfold bestStep
  dsimp only
  split_ifs with h1 h2
  · exact calc_le_one jw hjw _ _
  · exact hacc
  · exact hacc

theorem bestStep_none (jw : String → String → ℚ) (sv : Option String)
    (mf : String) (acc : Option Entity × ℚ) (d : Entity)
    (hacc : acc.1 = none → acc.2 = 0) :
    (bestStep jw sv mf acc d).1 = none → (bestStep jw sv mf acc d).2 = 0 := by
  unfold bestStep
  dsimp only
  split_ifs with h1 h2
  · intro h; cases h
  · exact hacc
  · exact hacc

theorem foldBest_mono (jw : String → String → ℚ) (sv : Option String) (mf : String) :
    ∀ (l : List Entity) (acc : Option Entity × ℚ),
      acc.2 ≤ (l.foldl (bestStep jw sv mf) acc).2 := by
  intro l
  induction l with
  | nil => intro acc; exact le_refl _
  | cons d rest ih =>
    intro acc
    rw [List.foldl_cons]
    exact le_trans (bestStep_mono jw sv mf acc d) (ih _)

theorem foldBest_le_one (jw : String → String → ℚ) (hjw : ∀ a b, jw a b ≤ 1)
    (sv : Option String) (mf : String) :
    ∀ (l : List Entity) (acc : Option Entity × ℚ),
      acc.2 ≤ 1 → (l.foldl (bestStep jw sv mf) acc).2 ≤ 1 := by
  intro l
  induction l with
  | nil => intro acc h; exact h
  | cons d rest ih =>
    intro acc h
    rw [List.foldl_cons]
    exact ih _ (bestStep_le_one jw hjw sv mf acc d h)

theorem foldBest_ge (jw : String → String → ℚ) (sv : Option String) (mf : String) :
    ∀ (l : List Entity) (acc : Option Entity × ℚ) (c : Entity), c ∈ l →
      truthyOpt (domainValue c mf) = true →
      calculate_similarity jw sv (domainValue c mf) ≤
        (l.foldl (bestStep jw sv mf) acc).2 := by
  intro l
  induction l with
  | nil => intro acc c hc; cases hc
  | cons d rest ih =>
    intro acc c hc hdv
    rcases List.mem_cons.mp hc with hh | hh
    · subst hh
      rw [List.foldl_cons]
      refine le_trans ?_ (foldBest_mono jw sv mf rest _)
      unfold bestStep
      dsimp only
      rw [if_pos hdv]
      split_ifs with h2
      · exact le_refl _
      · exact not_lt.mp h2
    · rw [List.foldl_cons]
      exact ih _ c hh hdv

theorem foldBest_none (jw : String → String → ℚ) (sv : Option String) (mf : String) :
    ∀ (l : List Entity) (acc : Option Entity × ℚ),
      (acc.1 = none → acc.2 = 0) →
      (l.foldl (bestStep jw sv mf) acc).1 = none →
      (l.foldl (bestStep jw sv mf) acc).2 = 0 := by
  intro l
  induction l with
  | nil => intro acc h; exact h
  | cons d rest ih =>
    intro acc h
    rw [List.foldl_cons]
    exact ih _ (bestStep_none jw sv mf acc d h)

theorem find_best_exact (jw : String → String → ℚ) (hjw : ∀ a b, jw a b ≤ 1)
    (s : Entity) (domain : List Entity) (mf : String) (c : Entity)
    (hsv : truthyOpt (subjectValue s mf) = true)
    (hc : c ∈ domain) (hdv : truthyOpt (domainValue c mf) = true)
    (hcalc : calculate_similarity jw (subjectValue s mf) (domainValue c mf) = 1) :
    ∃ b, find_best_match jw s domain mf = (some b, 1) := by
  unfold find_best_match
  dsimp only
  rw [hsv]
  simp only [Bool.not_true, Bool.false_eq_true, if_false]
  set r := domain.foldl (bestStep jw (subjectValue s mf) mf) (none, 0) with hr
  have hge : (1 : ℚ) ≤ r.2 := by
    rw [← hcalc]
    exact foldBest_ge jw (subjectValue s mf) mf domain (none, 0) c hc hdv
  have hle : r.2 ≤ 1 :=
    foldBest_le_one jw hjw (subjectValue s mf) mf domain (none, 0) (by norm_num)
  have h2 : r.2 = 1 := le_antisymm hle hge
  cases hob : r.1 with
  | none =>
    have := foldBest_none jw (subjectValue s mf) mf domain (none, 0)
      (fun _ => rfl) (hr ▸ hob)
    rw [← hr] at this
    rw [this] at h2
    norm_num at h2
  | some b =>
    refine ⟨b, ?_⟩
    have : r = (r.1, r.2) := rfl
    rw [this, hob, h2]

/-- C3: when the object-side population contains a candidate whose match value
equals the subject's selected match value after lower-casing and trimming,
`calculate_similarity` returns exactly 1.0 on that pair, and — provided the raw
Jaro-Winkler scores never exceed 1 and the threshold is at most 1 —
`resolve_entities_for_type` writes a correspondence edge for that subject
carrying score 1.0. -/
theorem C3_exact_match_resolves (jw : String → String → ℚ) (th : ℚ) (et : String)
    (subjects domain : List Entity) (s c : Entity) (sv cv : String)
    (hjw : ∀ a b, jw a b ≤ 1) (hth : th ≤ 1)
    (hs : s ∈ subjects) (hc : c ∈ domain)
    (hsv : subjectValue s (matchFieldFor et) = some sv) (hsvne : sv ≠ "")
    (hcv : domainValue c (matchFieldFor et) = some cv) (hcvne : cv ≠ "")
    (heq : pyStrip (strLower sv) = pyStrip (strLower cv)) :
    calculate_similarity jw (some sv) (some cv) = 1 ∧
    ∃ e ∈ (resolve_entities_for_type jw th et subjects domain).2,
      e.subject_id = s.id ∧ e.similarity = 1 := by
  have hsvt : truthyOpt (some sv) = true := by
    simp [truthyOpt, hsvne]
  have hcvt : truthyOpt (some cv) = true := by
    simp [truthyOpt, hcvne]
  have hcalc : calculate_similarity jw (some sv) (some cv) = 1 := by
    unfold calculate_similarity
    rw [hsvt, hcvt]
    simp only [Bool.not_true, Bool.false_or, Bool.false_eq_true, if_false,
      Option.getD_some]
    rw [if_pos (by simp [heq])]
  refine ⟨hcalc, ?_⟩
  rcases find_best_exact jw hjw s domain (matchFieldFor et) c
      (by rw [hsv]; exact hsvt) hc (by rw [hcv]; exact hcvt)
      (by rw [hsv, hcv]; exact hcalc) with ⟨b, hfb⟩
  have hstep : stepEdge jw th domain (matchFieldFor et) s = some ⟨s.id, b.id, 1⟩ := by
    rw [stepEdge_eq_ite jw th domain (matchFieldFor et) s b 1 hfb]
    exact if_pos hth
  refine ⟨⟨s.id, b.id, 1⟩, ?_, rfl, rfl⟩
  rw [resolve_edges_eq]
  exact List.mem_filterMap.mpr ⟨s, hs, hstep⟩

/-- C4: a subject entity whose best candidate score over the whole object-side
population falls strictly below the threshold gets no correspondence edge,
adds exactly one to the unresolved count, and contributes nothing to the
(separate) error list. -/
theorem C4_below_threshold_unresolved (jw : String → String → ℚ) (th : ℚ)
    (et : String) (subjects domain : List Entity) (s : Entity)
    (hs : s ∈ subjects) (hid : (subjects.map Entity.id).Nodup)
    (hlow : (find_best_match jw s domain (matchFieldFor et)).2 < th) :
    (∀ e ∈ (resolve_entities_for_type jw th et subjects domain).2,
       e.subject_id ≠ s.id) ∧
    (resolve_entities_for_type jw th et subjects domain).1.unresolved =
      (resolve_entities_for_type jw th et (subjects.erase s) domain).1.unresolved
        + 1 ∧
    (resolve_entities_for_type jw th et subjects domain).1.errors = [] :=
  unresolved_of_stepEdge_none jw th et subjects domain s hs hid
    (stepEdge_none_of_low jw th domain (matchFieldFor et) s hlow)

/-- C10: `calculate_similarity` returns 0.0 whenever either argument is `None`
or empty (identical empty strings included); `find_best_match` returns
`(None, 0.0)` for a subject without a usable match value; such a subject never
clears a positive threshold: it receives no correspondence edge and is counted
unresolved. -/
theorem C10_empty_match_value (jw : String → String → ℚ) (th : ℚ) (et : String)
    (subjects domain : List Entity) (s : Entity)
    (hs : s ∈ subjects) (hid : (subjects.map Entity.id).Nodup)
    (hval : truthyOpt (subjectValue s (matchFieldFor et)) = false)
    (hpos : 0 < th) :
    (∀ s1 s2 : Option String,
       s1 = none ∨ s1 = some "" ∨ s2 = none ∨ s2 = some "" →
       calculate_similarity jw s1 s2 = 0) ∧
    calculate_similarity jw (some "") (some "") = 0 ∧
    find_best_match jw s domain (matchFieldFor et) = (none, 0) ∧
    (∀ e ∈ (resolve_entities_for_type jw th et subjects domain).2,
       e.subject_id ≠ s.id) ∧
    (resolve_entities_for_type jw th et subjects domain).1.unresolved =
      (resolve_entities_for_type jw th et (subjects.erase s) domain).1.unresolved
        + 1 := by
  have hzero : ∀ s1 s2 : Option String,
      s1 = none ∨ s1 = some "" ∨ s2 = none ∨ s2 = some "" →
      calculate_similarity jw s1 s2 = 0 := by
    intro s1 s2 h
    unfold calculate_similarity
    rcases h with h | h | h | h <;> subst h <;> simp [truthyOpt]
  have hfb : find_best_match jw s domain (matchFieldFor et) = (none, 0) := by
    unfold find_best_match
    dsimp only
    rw [hval]
    simp
  have hnone : stepEdge jw th domain (matchFieldFor et) s = none :=
    stepEdge_of_none jw th domain (matchFieldFor et) s 0 hfb
  have hmain := unresolved_of_stepEdge_none jw th et subjects domain s hs hid hnone
  exact ⟨hzero, hzero (some "") (some "") (Or.inr (Or.inl rfl)), hfb,
    hmain.1, hmain.2.1⟩

/-! ## Classification-step lemmas -/

theorem classifyStep_pk (fl : String) (sample : List Row)
    (acc : List String × List String) (h : String)
    (hid : idPattern h = true)
    (hdist : allDistinct (sample.map (fun r => rowGet r h)) = true) :
    classifyStep fl sample acc h = (acc.1 ++ [h], acc.2) := by
  unfold idPattern at hid
  unfold classifyStep
  dsimp only
  rw [if_pos hid, if_pos hdist]

theorem classifyStep_attr (fl : String) (sample : List Row)
    (acc : List String × List String) (h : String)
    (hid : idPattern h = false) :
    classifyStep fl sample acc h = acc := by
  unfold idPattern at hid
  unfold classifyStep
  dsimp only
  rw [if_neg (by simp [hid])]

theorem classifyStep_fk_map (fl : String) (sample : List Row)
    (acc : List String × List String) (h : String)
    (hid : idPattern h = true)
    (hdist : allDistinct (sample.map (fun r => rowGet r h)) = false)
    (hmap : mappingish fl = true) :
    classifyStep fl sample acc h = (acc.1, acc.2 ++ [h]) := by
  unfold idPattern at hid
  unfold classifyStep
  dsimp only
  rw [if_pos hid, if_neg (by simp [hdist]), if_pos hmap]

theorem classifyStep_fk_id (fl : String) (sample : List Row)
    (acc : List String × List String) (h : String)
    (hid : idPattern h = true)
    (hdist : allDistinct (sample.map (fun r => rowGet r h)) = false)
    (hmap : mappingish fl = false)
    (hend : strEndsWith (strLower h) "_id" = true) :
    classifyStep fl sample acc h = (acc.1, acc.2 ++ [h]) := by
  unfold idPattern at hid
  unfold classifyStep
  dsimp only
  rw [if_pos hid, if_neg (by simp [hdist]), if_neg (by simp [hmap]), if_pos hend]

theorem classifyStep_skip (fl : String) (sample : List Row)
    (acc : List String × List String) (h : String)
    (hid : idPattern h = true)
    (hdist : allDistinct (sample.map (fun r => rowGet r h)) = false)
    (hmap : mappingish fl = false)
    (hend : strEndsWith (strLower h) "_id" = false) :
    classifyStep fl sample acc h = acc := by
  unfold idPattern at hid
  unfold classifyStep
  dsimp only
  rw [if_pos hid, if_neg (by simp [hdist]), if_neg (by simp [hmap]),
    if_neg (by simp [hend])]

/-! ## Analyses of the end-to-end scenario files -/

theorem analyze_products (rp : List Row)
    (hp : allDistinct ((rp.take 11).map (fun r => rowGet r "product_id")) = true) :
    analyze_csv_structure (productsFile rp) =
      .ok ⟨"products.csv", ["product_id", "product_name"], ["product_id"], [],
           ["product_name"], false, some "Product"⟩ := by
  have hch : classifyHeaders (strLower "products.csv") (rp.take 11)
      ["product_id", "product_name"] = (["product_id"], []) := by
    unfold classifyHeaders
    rw [List.foldl_cons,
      classifyStep_pk (strLower "products.csv") (rp.take 11) ([], []) "product_id"
        (by decide) hp,
      List.foldl_cons,
      classifyStep_attr (strLower "products.csv") (rp.take 11) _ "product_name"
        (by decide),
      List.foldl_nil]
    rfl
  unfold analyze_csv_structure productsFile
  dsimp only
  rw [hch]
  rfl

theorem analyze_suppliers (rs : List Row)
    (hs : allDistinct ((rs.take 11).map (fun r => rowGet r "supplier_id")) = true) :
    analyze_csv_structure (suppliersFile rs) =
      .ok ⟨"suppliers.csv", ["supplier_id", "name"], ["supplier_id"], [],
           ["name"], false, some "Supplier"⟩ := by
  have hch : classifyHeaders (strLower "suppliers.csv") (rs.take 11)
      ["supplier_id", "name"] = (["supplier_id"], []) := by
    unfold classifyHeaders
    rw [List.foldl_cons,
      classifyStep_pk (strLower "suppliers.csv") (rs.take 11) ([], []) "supplier_id"
        (by decide) hs,
      List.foldl_cons,
      classifyStep_attr (strLower "suppliers.csv") (rs.take 11) _ "name"
        (by decide),
      List.foldl_nil]
    rfl
  unfold analyze_csv_structure suppliersFile
  dsimp only
  rw [hch]
  rfl

theorem analyze_mapping (rm : List Row)
    (hm1 : allDistinct ((rm.take 11).map (fun r => rowGet r "product_id")) = true)
    (hm2 : allDistinct ((rm.take 11).map (fun r => rowGet r "supplier_id")) = true) :
    analyze_csv_structure (mappingFile rm) =
      .ok ⟨"product_supplier_mapping.csv", ["product_id", "supplier_id"],
           ["product_id", "supplier_id"], [], [], true, none⟩ := by
  have hch : classifyHeaders (strLower "product_supplier_mapping.csv") (rm.take 11)
      ["product_id", "supplier_id"] = (["product_id", "supplier_id"], []) := by
    unfold classifyHeaders
    rw [List.foldl_cons,
      classifyStep_pk (strLower "product_supplier_mapping.csv") (rm.take 11)
        ([], []) "product_id" (by decide) hm1,
      List.foldl_cons,
      classifyStep_pk (strLower "product_supplier_mapping.csv") (rm.take 11)
        _ "supplier_id" (by decide) hm2,
      List.foldl_nil]
    rfl
  unfold analyze_csv_structure mappingFile
  dsimp only
  rw [hch]
  rfl

/-- C1: the three-file scenario (products, suppliers, and the mapping file,
each with distinct id values in the sampled rows) yields exactly the plan with
two node entries — Product keyed by `product_id` from `products.csv`, Supplier
keyed by `supplier_id` from `suppliers.csv` — and one relationship entry
sourced from the mapping file joining Product(`product_id`) to
Supplier(`supplier_id`). -/
theorem C1_end_to_end (rp rs rm : List Row)
    (hp : allDistinct ((rp.take 11).map (fun r => rowGet r "product_id")) = true)
    (hs : allDistinct ((rs.take 11).map (fun r => rowGet r "supplier_id")) = true)
    (hm1 : allDistinct ((rm.take 11).map (fun r => rowGet r "product_id")) = true)
    (hm2 : allDistinct ((rm.take 11).map (fun r => rowGet r "supplier_id")) = true) :
    generate_construction_plan [productsFile rp, suppliersFile rs, mappingFile rm] =
      .ok c1Plan ∧
    (c1Plan.filter (fun p => p.2.isNode)).length = 2 ∧
    planFind c1Plan "Product" =
      some (.node ⟨"products.csv", "Product", "product_id", ["product_name"]⟩) ∧
    planFind c1Plan "Supplier" =
      some (.node ⟨"suppliers.csv", "Supplier", "supplier_id", ["name"]⟩) ∧
    c1Plan.filter (fun p => p.2.isRelEntry) =
      [("MAPPED_TO", .rel ⟨"product_supplier_mapping.csv", "MAPPED_TO",
        "Product", "product_id", "Supplier", "supplier_id", []⟩)] := by
  refine ⟨?_, by decide, by decide, by decide, by decide⟩
  unfold generate_construction_plan
  rw [List.map_cons, analyze_products rp hp, List.map_cons,
    analyze_suppliers rs hs, List.map_cons, analyze_mapping rm hm1 hm2,
    List.map_nil]
  rfl

theorem C1_end_to_end_witness :
    (allDistinct ((([[("product_id", "p1"), ("product_name", "Chair")],
        [("product_id", "p2"), ("product_name", "Desk")]] : List Row).take 11).map
        (fun r => rowGet r "product_id")) = true) ∧
    (allDistinct ((([[("supplier_id", "s1"), ("name", "Acme")]] : List Row).take 11).map
        (fun r => rowGet r "supplier_id")) = true) ∧
    generate_construction_plan
      [productsFile [[("product_id", "p1"), ("product_name", "Chair")],
        [("product_id", "p2"), ("product_name", "Desk")]],
       suppliersFile [[("supplier_id", "s1"), ("name", "Acme")]],
       mappingFile [[("product_id", "p1"), ("supplier_id", "s1")]]] = .ok c1Plan :=
  ⟨by decide, by decide,
   (C1_end_to_end
     [[("product_id", "p1"), ("product_name", "Chair")],
      [("product_id", "p2"), ("product_name", "Desk")]]
     [[("supplier_id", "s1"), ("name", "Acme")]]
     [[("product_id", "p1"), ("supplier_id", "s1")]]
     (by decide) (by decide) (by decide) (by decide)).1⟩

/-- C5 (code bug in the source): `analyze_csv_structure` does return an error
profile with an error marker and empty column lists for an unreadable file,
but `generate_construction_plan` then raises a `KeyError` on that profile —
the error dictionary lacks the `is_relationship_table` key read at line 256 —
instead of continuing with the remaining files. -/
theorem C5_error_profile_raises :
    analyze_csv_structure brokenFile = .err "broken.csv" "unreadable" ∧
    (analyze_csv_structure brokenFile).errorMsg = some "unreadable" ∧
    (analyze_csv_structure brokenFile).headersOf = [] ∧
    (analyze_csv_structure brokenFile).idColumnsOf = [] ∧
    (analyze_csv_structure brokenFile).foreignKeysOf = [] ∧
    (analyze_csv_structure brokenFile).propertiesOf = [] ∧
    generate_construction_plan
      [brokenFile, suppliersFile [[("supplier_id", "s1"), ("name", "Acme")]]] =
      .error "KeyError: is_relationship_table" :=
  ⟨rfl, rfl, rfl, rfl, rfl, rfl, rfl⟩

/-- C7 counterexample: `items.csv` is a non-association profile (entity label
`Item`) with no id column, and node generation emits no NodeSpec at all for it
— there is no fallback key; the plan comes back empty. -/
theorem C7_counterexample :
    analyze_csv_structure itemsFile =
      .ok ⟨"items.csv", ["name"], [], [], ["name"], false, some "Item"⟩ ∧
    (analyze_csv_structure itemsFile).idColumnsOf = [] ∧
    generate_construction_plan [itemsFile] = .ok [] :=
  ⟨rfl, rfl, rfl⟩

/-- C2 counterexample: the unique-valued column `part_key` matches `*_key`
but is classified as a plain attribute, not a primary-key candidate; and in
the mapping-named file the duplicated bare `id` column is classified as a
foreign key even though the claim excludes bare `id`.  (A unique bare `id`
column is indeed a primary-key candidate.) -/
theorem C2_counterexample :
    strEndsWith (strLower "part_key") "_key" = true ∧
    allDistinct ((([[("part_key", "a")], [("part_key", "b")]] : List Row).take 11).map
      (fun r => rowGet r "part_key")) = true ∧
    (analyze_csv_structure partsKeyFile).idColumnsOf = [] ∧
    (analyze_csv_structure partsKeyFile).propertiesOf = ["part_key"] ∧
    (analyze_csv_structure xMappingFile).foreignKeysOf = ["id"] ∧
    (analyze_csv_structure usersFile).idColumnsOf = ["id"] := by
  refine ⟨by decide, by decide, rfl, rfl, rfl, rfl⟩

/-- C8 counterexample: in the three-file scenario of `c8Files` the second
relationship has the unique type name `CONTAINS`, yet it is stored under the
suffixed key `CONTAINS_1` and no entry exists under `CONTAINS`. -/
theorem C8_counterexample :
    generate_construction_plan c8Files = .ok c8Plan ∧
    planFind c8Plan "CONTAINS" = none ∧
    planFind c8Plan "CONTAINS_1" =
      some (.rel ⟨"parts.csv", "CONTAINS", "Part", "product_id",
        "Product", "product_id", []⟩) ∧
    (c8Plan.filter (fun p =>
      match p.2 with
      | .rel r => r.relationship_type == "CONTAINS"
      | .node _ => false)).length = 1 := by
  refine ⟨rfl, by decide, by decide, by decide⟩

/-! ## Column-classification characterization (claim C2) -/

theorem classify_fold_split (fl : String) (sample : List Row) :
    ∀ (headers : List String) (acc : List String × List String),
      headers.foldl (classifyStep fl sample) acc =
        (acc.1 ++ headers.filter (pkCond fl sample),
         acc.2 ++ headers.filter (fkCond fl sample)) := by
  intro headers
  induction headers with
  | nil => intro acc; simp
  | cons h rest ih =>
    intro acc
    rw [List.foldl_cons]
    by_cases hid : idPattern h = true
    · by_cases hdist : allDistinct (sample.map (fun r => rowGet r h)) = true
      · rw [classifyStep_pk fl sample acc h hid hdist, ih]
        have hpk : pkCond fl sample h = true := by
          unfold pkCond; rw [hid, hdist]; rfl
        have hfk : fkCond fl sample h = false := by
          unfold fkCond; rw [hid, hdist]; rfl
        rw [List.filter_cons, List.filter_cons, hpk, hfk]
        simp
      · have hdist2 : allDistinct (sample.map (fun r => rowGet r h)) = false :=
          Bool.eq_false_iff.mpr hdist
        by_cases hmap : mappingish fl = true
        · rw [classifyStep_fk_map fl sample acc h hid hdist2 hmap, ih]
          have hpk : pkCond fl sample h = false := by
            unfold pkCond; rw [hid, hdist2]; rfl
          have hfk : fkCond fl sample h = true := by
            unfold fkCond; rw [hid, hdist2, hmap]; rfl
          rw [List.filter_cons, List.filter_cons, hpk, hfk]
          simp
        · have hmap2 : mappingish fl = false := Bool.eq_false_iff.mpr hmap
          by_cases hend : strEndsWith (strLower h) "_id" = true
          · rw [classifyStep_fk_id fl sample acc h hid hdist2 hmap2 hend, ih]
            have hpk : pkCond fl sample h = false := by
              unfold pkCond; rw [hid, hdist2]; rfl
            have hfk : fkCond fl sample h = true := by
              unfold fkCond; rw [hid, hdist2, hmap2, hend]; rfl
            rw [List.filter_cons, List.filter_cons, hpk, hfk]
            simp
          · have hend2 : strEndsWith (strLower h) "_id" = false :=
              Bool.eq_false_iff.mpr hend
            rw [classifyStep_skip fl sample acc h hid hdist2 hmap2 hend2, ih]
            have hpk : pkCond fl sample h = false := by
              unfold pkCond; rw [hid, hdist2]; rfl
            have hfk : fkCond fl sample h = false := by
              unfold fkCond; rw [hid, hdist2, hmap2, hend2]; rfl
            rw [List.filter_cons, List.filter_cons, hpk, hfk]
            simp
    · have hid2 : idPattern h = false := Bool.eq_false_iff.mpr hid
      rw [classifyStep_attr fl sample acc h hid2, ih]
      have hpk : pkCond fl sample h = false := by
        unfold pkCond; rw [hid2]; rfl
      have hfk : fkCond fl sample h = false := by
        unfold fkCond; rw [hid2]; rfl
      rw [List.filter_cons, List.filter_cons, hpk, hfk]
      simp

theorem analyze_ok_idColumns (fn : String) (headers : List String) (rows : List Row) :
    (analyze_csv_structure ⟨fn, .ok ⟨headers, rows⟩⟩).idColumnsOf =
      headers.filter (pkCond (strLower fn) (rows.take 11)) := by
  unfold analyze_csv_structure classifyHeaders
  dsimp only
  rw [classify_fold_split (strLower fn) (rows.take 11) headers ([], [])]
  rfl

theorem analyze_ok_foreignKeys (fn : String) (headers : List String) (rows : List Row) :
    (analyze_csv_structure ⟨fn, .ok ⟨headers, rows⟩⟩).foreignKeysOf =
      headers.filter (fkCond (strLower fn) (rows.take 11)) := by
  unfold analyze_csv_structure classifyHeaders
  dsimp only
  rw [classify_fold_split (strLower fn) (rows.take 11) headers ([], [])]
  rfl

theorem analyze_ok_properties (fn : String) (headers : List String) (rows : List Row) :
    (analyze_csv_structure ⟨fn, .ok ⟨headers, rows⟩⟩).propertiesOf =
      headers.filter (fun x =>
        !((headers.filter (pkCond (strLower fn) (rows.take 11))).contains x) &&
        !((headers.filter (fkCond (strLower fn) (rows.take 11))).contains x)) := by
  unfold analyze_csv_structure classifyHeaders
  dsimp only
  rw [classify_fold_split (strLower fn) (rows.take 11) headers ([], [])]
  rfl

/-- C2 (amended): for a readable file, a header is classified as a primary-key
candidate exactly when its name matches the id pattern (case-insensitive `id`
or `*_id` — not `*_key`) and its sampled values are all distinct; as a foreign
key exactly when its name matches the id pattern, its sampled values repeat,
and either the filename carries a mapping/relationship/`_to_` token or the
name ends in `_id`; and as a plain attribute exactly when it lands in neither
key list. -/
theorem C2_amended_classification (fn : String) (headers : List String)
    (rows : List Row) (h : String) (hmem : h ∈ headers) :
    (h ∈ (analyze_csv_structure ⟨fn, .ok ⟨headers, rows⟩⟩).idColumnsOf ↔
       idPattern h = true ∧
       allDistinct ((rows.take 11).map (fun r => rowGet r h)) = true) ∧
    (h ∈ (analyze_csv_structure ⟨fn, .ok ⟨headers, rows⟩⟩).foreignKeysOf ↔
       idPattern h = true ∧
       allDistinct ((rows.take 11).map (fun r => rowGet r h)) = false ∧
       (mappingish (strLower fn) = true ∨ strEndsWith (strLower h) "_id" = true)) ∧
    (h ∈ (analyze_csv_structure ⟨fn, .ok ⟨headers, rows⟩⟩).propertiesOf ↔
       (pkCond (strLower fn) (rows.take 11) h = false ∧
        fkCond (strLower fn) (rows.take 11) h = false)) := by
  rw [analyze_ok_idColumns, analyze_ok_foreignKeys, analyze_ok_properties]
  refine ⟨?_, ?_, ?_⟩
  · rw [List.mem_filter]
    unfold pkCond
    simp [hmem, Bool.and_eq_true]
  · rw [List.mem_filter]
    unfold fkCond
    simp [hmem, Bool.and_eq_true, Bool.or_eq_true, and_assoc]
  · rw [List.mem_filter]
    simp [hmem, List.mem_filter, Bool.not_eq_true']

theorem C2_amended_classification_witness :
    ("id" ∈ (["id"] : List String)) ∧
    (("id" ∈ (analyze_csv_structure
        ⟨"users.csv", .ok ⟨["id"], [[("id", "1")], [("id", "2")]]⟩⟩).idColumnsOf ↔
        idPattern "id" = true ∧
        allDistinct ((([[("id", "1")], [("id", "2")]] : List Row).take 11).map
          (fun r => rowGet r "id")) = true) ∧
     ("id" ∈ (analyze_csv_structure
        ⟨"users.csv", .ok ⟨["id"], [[("id", "1")], [("id", "2")]]⟩⟩).foreignKeysOf ↔
        idPattern "id" = true ∧
        allDistinct ((([[("id", "1")], [("id", "2")]] : List Row).take 11).map
          (fun r => rowGet r "id")) = false ∧
        (mappingish (strLower "users.csv") = true ∨
          strEndsWith (strLower "id") "_id" = true)) ∧
     ("id" ∈ (analyze_csv_structure
        ⟨"users.csv", .ok ⟨["id"], [[("id", "1")], [("id", "2")]]⟩⟩).propertiesOf ↔
        (pkCond (strLower "users.csv")
          (([[("id", "1")], [("id", "2")]] : List Row).take 11) "id" = false ∧
         fkCond (strLower "users.csv")
          (([[("id", "1")], [("id", "2")]] : List Row).take 11) "id" = false))) :=
  ⟨by decide, C2_amended_classification "users.csv" ["id"]
    [[("id", "1")], [("id", "2")]] "id" (by decide)⟩

/-! ## Plan-key uniqueness (claim C6) -/

theorem nodePlanStep_keys_nodup (plan : Plan) (a : OkAnalysis)
    (h : (plan.map Prod.fst).Nodup) :
    ((nodePlanStep plan a).map Prod.fst).Nodup := by
  unfold nodePlanStep
  split_ifs with he
  · cases het : a.entity_type with
    | none => exact h
    | some et =>
      cases hic : a.id_columns with
      | nil => exact h
      | cons c cs => exact dictInsert_keys_nodup plan et _ h
  · exact h

theorem nodeLoop_keys_nodup :
    ∀ (analyses : List Analysis) (plan p : Plan),
      (plan.map Prod.fst).Nodup → nodeLoop analyses plan = .ok p →
      (p.map Prod.fst).Nodup := by
  intro analyses
  induction analyses with
  | nil =>
    intro plan p hnd h
    injection h with h2
    rw [← h2]
    exact hnd
  | cons a rest ih =>
    intro plan p hnd h
    cases a with
    | err f e => simp [nodeLoop] at h
    | ok a => exact ih _ p (nodePlanStep_keys_nodup plan a hnd) h

theorem foldInsert_keys_nodup :
    ∀ (entries : List (String × PlanEntry)) (plan : Plan),
      (plan.map Prod.fst).Nodup →
      ((entries.foldl (fun pl e => dictInsert pl e.1 e.2) plan).map Prod.fst).Nodup := by
  intro entries
  induction entries with
  | nil => intro plan h; exact h
  | cons e rest ih =>
    intro plan h
    rw [List.foldl_cons]
    exact ih _ (dictInsert_keys_nodup plan e.1 e.2 h)

theorem relFold_eq_entries (plan : Plan) (rels : List Rel) :
    relFold plan rels = (rels.enum.map (fun ir =>
      (relKeyFor ir.1 ir.2.relationship_type, PlanEntry.rel (relSpecOf ir.2)))).foldl
      (fun pl e => dictInsert pl e.1 e.2) plan := by
  unfold relFold
  rw [List.foldl_map]

theorem relFold_keys_nodup (plan : Plan) (rels : List Rel)
    (h : (plan.map Prod.fst).Nodup) :
    ((relFold plan rels).map Prod.fst).Nodup := by
  rw [relFold_eq_entries]
  exact foldInsert_keys_nodup _ plan h

/-- C6: `generate_construction_plan` is a pure function of its input file set,
so a second run over the same files (same contents, same order) produces the
identical plan with no accumulation, and a generated plan never holds two
entries under the same plan-entry name. -/
theorem C6_idempotent_and_nodup (files : List RawFile) (plan : Plan)
    (h : generate_construction_plan files = .ok plan) :
    generate_construction_plan files = generate_construction_plan files ∧
    (plan.map Prod.fst).Nodup := by
  refine ⟨rfl, ?_⟩
  unfold generate_construction_plan planOfAnalyses at h
  cases hn : nodeLoop (files.map analyze_csv_structure) [] with
  | error e => rw [hn] at h; cases h
  | ok plan1 =>
    rw [hn] at h
    cases hi : infer_relationships (files.map analyze_csv_structure) with
    | error e => rw [hi] at h; cases h
    | ok rels =>
      rw [hi] at h
      injection h with h2
      rw [← h2]
      exact relFold_keys_nodup plan1 rels
        (nodeLoop_keys_nodup (files.map analyze_csv_structure) [] plan1
          (by simp) hn)

theorem C6_idempotent_and_nodup_witness :
    generate_construction_plan c8Files = .ok c8Plan ∧
    (generate_construction_plan c8Files = generate_construction_plan c8Files ∧
     (c8Plan.map Prod.fst).Nodup) :=
  ⟨rfl, C6_idempotent_and_nodup c8Files c8Plan rfl⟩

/-! ## Node generation (claim C7) -/

theorem any_beq_false_of_not_mem {α : Type} (m : List (String × α)) (k : String)
    (h : k ∉ m.map Prod.fst) : m.any (fun p => p.1 == k) = false := by
  by_contra hc
  have hany : m.any (fun p => p.1 == k) = true := by
    cases hb : m.any (fun p => p.1 == k) with
    | true => rfl
    | false => exact absurd hb hc
  rcases List.any_eq_true.mp hany with ⟨p, hp, hbeq⟩
  exact h (List.mem_map.mpr ⟨p, hp, eq_of_beq hbeq⟩)

theorem dictInsert_fresh_append {α : Type} (m : List (String × α)) (k : String)
    (v : α) (h : k ∉ m.map Prod.fst) : dictInsert m k v = m ++ [(k, v)] := by
  unfold dictInsert
  rw [if_neg (by simp [any_beq_false_of_not_mem m k h])]

theorem nodeLoop_all_ok_eq :
    ∀ (as : List OkAnalysis) (plan : Plan),
      (∀ a ∈ as, nodeEligible a = true → (a.entity_type.getD "") ∉ plan.map Prod.fst) →
      ((as.filter nodeEligible).map (fun a => a.entity_type.getD "")).Nodup →
      nodeLoop (as.map .ok) plan =
        .ok (plan ++ (as.filter nodeEligible).map nodeEntryOf) := by
  intro as
  induction as with
  | nil => intro plan hf hn; simp [nodeLoop]
  | cons a rest ih =>
    intro plan hf hn
    show nodeLoop (rest.map .ok) (nodePlanStep plan a) = _
    by_cases he : nodeEligible a = true
    · have hee := he
      unfold nodeEligible at hee
      cases het : a.entity_type with
      | none => rw [het] at hee; simp at hee
      | some et =>
        cases hic : a.id_columns with
        | nil => rw [hic] at hee; simp at hee
        | cons c cs =>
          have hentry : nodeEntryOf a =
              (et, .node ⟨a.file, et, c, a.properties.take 20⟩) := by
            unfold nodeEntryOf
            rw [het, hic]
            rfl
          have hstep : nodePlanStep plan a =
              plan ++ [(et, .node ⟨a.file, et, c, a.properties.take 20⟩)] := by
            unfold nodePlanStep
            rw [if_pos he, het, hic]
            refine dictInsert_fresh_append plan et _ ?_
            have := hf a (List.mem_cons_self a rest) he
            rw [het] at this
            exact this
          have hfilter : (a :: rest).filter nodeEligible =
              a :: rest.filter nodeEligible := by
            rw [List.filter_cons, if_pos he]
          have hlabels : ((a :: rest).filter nodeEligible).map
              (fun b => b.entity_type.getD "") =
              et :: (rest.filter nodeEligible).map (fun b => b.entity_type.getD "") := by
            rw [hfilter, List.map_cons, het]
            rfl
          rw [hlabels] at hn
          have hnotin : et ∉ (rest.filter nodeEligible).map
              (fun b => b.entity_type.getD "") := (List.nodup_cons.mp hn).1
          have hf2 : ∀ b ∈ rest, nodeEligible b = true →
              (b.entity_type.getD "") ∉
                (plan ++ [(et, PlanEntry.node ⟨a.file, et, c,
                  a.properties.take 20⟩)]).map Prod.fst := by
            intro b hb hbe
            rw [List.map_append]
            rw [List.mem_append]
            rintro (hin | hin)
            · exact hf b (List.mem_cons_of_mem a hb) hbe hin
            · have hbet : b.entity_type.getD "" = et := by
                simpa using hin
              exact hnotin (hbet ▸ List.mem_map.mpr
                ⟨b, List.mem_filter.mpr ⟨hb, hbe⟩, rfl⟩)
          have hres := ih (plan ++ [(et, .node ⟨a.file, et, c,
            a.properties.take 20⟩)]) hf2 (List.nodup_cons.mp hn).2
          rw [hstep, hres, hfilter, List.map_cons, hentry]
          rw [List.append_assoc]
          rfl
    · have he2 : nodeEligible a = false := Bool.eq_false_iff.mpr he
      have hstep : nodePlanStep plan a = plan := by
        unfold nodePlanStep
        rw [if_neg (by simp [he2])]
      have hfilter : (a :: rest).filter nodeEligible = rest.filter nodeEligible := by
        rw [List.filter_cons, if_neg (by simp [he2])]
      rw [hstep, hfilter]
      refine ih plan ?_ ?_
      · intro b hb hbe
        exact hf b (List.mem_cons_of_mem a hb) hbe
      · rw [hfilter] at hn
        exact hn

theorem nodeLoop_ok_of_all_ok :
    ∀ (l : List Analysis) (plan : Plan),
      (∀ x ∈ l, ∃ oa, x = .ok oa) → ∃ p, nodeLoop l plan = .ok p := by
  intro l
  induction l with
  | nil => intro plan _; exact ⟨plan, rfl⟩
  | cons x rest ih =>
    intro plan hall
    rcases hall x (List.mem_cons_self x rest) with ⟨oa, hoa⟩
    subst hoa
    exact ih (nodePlanStep plan oa)
      (fun y hy => hall y (List.mem_cons_of_mem _ hy))

theorem buildEntityIdMapLoop_ok :
    ∀ (l : List Analysis) (acc : List (String × String)),
      (∀ x ∈ l, ∃ oa, x = .ok oa) →
      ∃ m, buildEntityIdMapLoop acc l = .ok m := by
  intro l
  induction l with
  | nil => intro acc _; exact ⟨acc, rfl⟩
  | cons x rest ih =>
    intro acc hall
    rcases hall x (List.mem_cons_self x rest) with ⟨oa, hoa⟩
    subst hoa
    exact ih _ (fun y hy => hall y (List.mem_cons_of_mem _ hy))

theorem relLoop_ok_of_all_ok (emap : List (String × String)) :
    ∀ (l : List Analysis),
      (∀ x ∈ l, ∃ oa, x = .ok oa) → ∃ rs, relLoop emap l = .ok rs := by
  intro l
  induction l with
  | nil => intro _; exact ⟨[], rfl⟩
  | cons x rest ih =>
    intro hall
    rcases hall x (List.mem_cons_self x rest) with ⟨oa, hoa⟩
    subst hoa
    rcases ih (fun y hy => hall y (List.mem_cons_of_mem _ hy)) with ⟨rs, hrs⟩
    refine ⟨relsOfAnalysis emap oa ++ rs, ?_⟩
    simp only [relLoop]
    rw [hrs]

theorem generate_ok_of_readable (files : List RawFile)
    (hfiles : ∀ f ∈ files, ∃ csv, f.content = Except.ok csv) :
    ∃ p, generate_construction_plan files = .ok p := by
  have hall : ∀ x ∈ files.map analyze_csv_structure, ∃ oa, x = .ok oa := by
    intro x hx
    rcases List.mem_map.mp hx with ⟨f, hf, hfx⟩
    rcases hfiles f hf with ⟨csv, hcsv⟩
    rw [← hfx]
    unfold analyze_csv_structure
    rw [hcsv]
    exact ⟨_, rfl⟩
  rcases nodeLoop_ok_of_all_ok (files.map analyze_csv_structure) [] hall with ⟨p1, hp1⟩
  rcases buildEntityIdMapLoop_ok (files.map analyze_csv_structure) [] hall with ⟨m, hm⟩
  rcases relLoop_ok_of_all_ok m (files.map analyze_csv_structure) hall with ⟨rs, hrs⟩
  have hinf : infer_relationships (files.map analyze_csv_structure) = .ok rs := by
    unfold infer_relationships
    rw [hm]
    exact hrs
  refine ⟨relFold p1 rs, ?_⟩
  unfold generate_construction_plan planOfAnalyses
  rw [hp1]
  dsimp only
  rw [hinf]

/-- C7 (amended): construction never raises on readable files, and the node
loop emits exactly one NodeSpec per non-association analysis that has a truthy
entity label and a non-empty `id_columns` list — keyed by the label, with the
first id column as the unique key; an analysis with no id column is not
eligible and contributes no NodeSpec (there is no fallback key). -/
theorem C7_amended_node_generation (files : List RawFile) (as : List OkAnalysis)
    (hfiles : ∀ f ∈ files, ∃ csv, f.content = Except.ok csv)
    (hN : ((as.filter nodeEligible).map (fun a => a.entity_type.getD "")).Nodup) :
    (∃ p, generate_construction_plan files = .ok p) ∧
    nodeLoop (as.map .ok) [] = .ok ((as.filter nodeEligible).map nodeEntryOf) ∧
    (∀ a ∈ as, a.id_columns = [] → nodeEligible a = false) ∧
    (∀ a ∈ as, nodeEligible a = true → a.id_columns ≠ []) := by
  refine ⟨generate_ok_of_readable files hfiles, ?_, ?_, ?_⟩
  · exact nodeLoop_all_ok_eq as [] (by intro a _ _ hmem; simp at hmem) hN
  · intro a _ hids
    unfold nodeEligible
    rw [hids]
    simp
  · intro a _ he hids
    unfold nodeEligible at he
    rw [hids] at he
    simp at he

theorem C7_amended_node_generation_witness :
    nodeLoop ([⟨"items.csv", ["name"], [], [], ["name"], false, some "Item"⟩,
      ⟨"users.csv", ["id"], ["id"], [], [], false, some "User"⟩].map Analysis.ok) [] =
      .ok (([⟨"items.csv", ["name"], [], [], ["name"], false, some "Item"⟩,
        ⟨"users.csv", ["id"], ["id"], [], [], false, some "User"⟩].filter
          nodeEligible).map nodeEntryOf) ∧
    (∃ p, generate_construction_plan [usersFile] = .ok p) :=
  ⟨(C7_amended_node_generation [usersFile]
      [⟨"items.csv", ["name"], [], [], ["name"], false, some "Item"⟩,
       ⟨"users.csv", ["id"], ["id"], [], [], false, some "User"⟩]
      (by
        intro f hf
        rw [List.mem_singleton] at hf
        subst hf
        exact ⟨_, rfl⟩)
      (by decide)).2.1,
   (C7_amended_node_generation [usersFile]
      [⟨"items.csv", ["name"], [], [], ["name"], false, some "Item"⟩,
       ⟨"users.csv", ["id"], ["id"], [], [], false, some "User"⟩]
      (by
        intro f hf
        rw [List.mem_singleton] at hf
        subst hf
        exact ⟨_, rfl⟩)
      (by decide)).1⟩

/-! ## Relationship plan-entry naming (claim C8) -/

theorem foldInsert_find_preserved :
    ∀ (entries : List (String × PlanEntry)) (plan : Plan) (k : String) (v : PlanEntry),
      planFind plan k = some v → (∀ e ∈ entries, (e.1 == k) = false) →
      planFind (entries.foldl (fun pl e => dictInsert pl e.1 e.2) plan) k = some v := by
  intro entries
  induction entries with
  | nil => intro plan k v h _; exact h
  | cons e rest ih =>
    intro plan k v h hne
    rw [List.foldl_cons]
    refine ih _ k v ?_ (fun x hx => hne x (List.mem_cons_of_mem e hx))
    rw [planFind_dictInsert_other plan e.1 e.2 k (hne e (List.mem_cons_self e rest))]
    exact h

theorem foldInsert_find :
    ∀ (entries : List (String × PlanEntry)) (plan : Plan),
      (plan.map Prod.fst ++ entries.map Prod.fst).Nodup →
      ∀ k v, (k, v) ∈ entries →
      planFind (entries.foldl (fun pl e => dictInsert pl e.1 e.2) plan) k = some v := by
  intro entries
  induction entries with
  | nil => intro plan _ k v hmem; simp at hmem
  | cons e rest ih =>
    intro plan hN k v hmem
    rw [List.map_cons] at hN
    have hNparts := List.nodup_append.mp hN
    have hdisj : List.Disjoint (plan.map Prod.fst) (e.1 :: rest.map Prod.fst) :=
      hNparts.2.2
    have hfreshPlan : e.1 ∉ plan.map Prod.fst := by
      intro hin
      exact hdisj hin (List.mem_cons_self _ _)
    rw [List.foldl_cons]
    rcases List.mem_cons.mp hmem with hh | hh
    · have hk : e = (k, v) := hh.symm
      subst hk
      refine foldInsert_find_preserved rest _ k v (planFind_dictInsert_self plan k v) ?_
      intro x hx
      have hkfresh : k ∉ rest.map Prod.fst := by
        have := (List.nodup_cons.mp hNparts.2.1).1
        exact this
      refine beq_eq_false_iff_ne.mpr ?_
      intro hxk
      exact hkfresh (hxk ▸ List.mem_map.mpr ⟨x, hx, rfl⟩)
    · refine ih (dictInsert plan e.1 e.2) ?_ k v hh
      rw [dictInsert_keys_of_fresh plan e.1 e.2
        (any_beq_false_of_not_mem plan e.1 hfreshPlan)]
      rw [List.append_assoc]
      rw [List.singleton_append]
      exact hN

/-- C8 (amended): relationship plan-entry naming is positional, not
collision-driven — the relationship at index 0 of the inferred list is stored
under its bare type name, and every relationship at a later index `i` is
stored under `type_i` whether or not its type name repeats elsewhere.  Under
distinct generated keys, each relationship is found under exactly that
positional key. -/
theorem C8_amended_positional_suffix (rels : List Rel) (plan1 : Plan) (i : Nat)
    (r : Rel) (hget : rels.get? i = some r)
    (hN : (plan1.map Prod.fst ++
      rels.enum.map (fun ir => relKeyFor ir.1 ir.2.relationship_type)).Nodup) :
    planFind (relFold plan1 rels) (relKeyFor i r.relationship_type) =
      some (.rel (relSpecOf r)) ∧
    (0 < i → relKeyFor i r.relationship_type =
      r.relationship_type ++ "_" ++ toString i) ∧
    relKeyFor 0 r.relationship_type = r.relationship_type := by
  refine ⟨?_, fun hi => by unfold relKeyFor; rw [if_pos hi],
    by unfold relKeyFor; rfl⟩
  rw [relFold_eq_entries]
  refine foldInsert_find _ plan1 ?_ _ _ ?_
  · rw [List.map_map]
    exact hN
  · refine List.mem_map.mpr ⟨(i, r), ?_, rfl⟩
    exact List.mem_enum_iff_get?.mpr hget

theorem C8_amended_positional_suffix_witness :
    ([relT0, relT1].get? 1 = some relT1) ∧
    planFind (relFold [] [relT0, relT1]) (relKeyFor 1 relT1.relationship_type) =
      some (.rel (relSpecOf relT1)) ∧
    relKeyFor 1 relT1.relationship_type = "T1_1" :=
  ⟨by decide,
   (C8_amended_positional_suffix [relT0, relT1] [] 1 relT1 (by decide)
     (by decide)).1,
   by decide⟩

/-! ## Witnesses for the linkage claims -/

theorem C3_exact_match_resolves_witness :
    (∀ a b, jw0 a b ≤ 1) ∧
    ((⟨9, 10, by norm_num, by norm_num⟩ : ℚ) ≤ 1) ∧
    stockholmSubject ∈ [stockholmSubject] ∧
    stockholmDomain ∈ [stockholmDomain] ∧
    subjectValue stockholmSubject (matchFieldFor "Chair") = some "Stockholm Chair" ∧
    domainValue stockholmDomain (matchFieldFor "Chair") = some "stockholm chair " ∧
    pyStrip (strLower "Stockholm Chair") = pyStrip (strLower "stockholm chair ") ∧
    (calculate_similarity jw0 (some "Stockholm Chair") (some "stockholm chair ") = 1 ∧
     ∃ e ∈ (resolve_entities_for_type jw0 (⟨9, 10, by norm_num, by norm_num⟩ : ℚ)
        "Chair" [stockholmSubject] [stockholmDomain]).2,
       e.subject_id = stockholmSubject.id ∧ e.similarity = 1) :=
  ⟨fun a b => by norm_num [jw0], by decide, by decide, by decide, by decide,
   by decide, by decide,
   C3_exact_match_resolves jw0 (⟨9, 10, by norm_num, by norm_num⟩ : ℚ) "Chair"
     [stockholmSubject] [stockholmDomain] stockholmSubject stockholmDomain
     "Stockholm Chair" "stockholm chair "
     (fun a b => by norm_num [jw0]) (by decide) (by decide) (by decide)
     (by decide) (by decide) (by decide) (by decide) (by decide)⟩

theorem C4_below_threshold_unresolved_witness :
    (abcEntity ∈ [abcEntity]) ∧
    (([abcEntity].map Entity.id).Nodup) ∧
    ((find_best_match jw0 abcEntity [xyzEntity] (matchFieldFor "Chair")).2 <
      (⟨1, 2, by norm_num, by norm_num⟩ : ℚ)) ∧
    ((∀ e ∈ (resolve_entities_for_type jw0 (⟨1, 2, by norm_num, by norm_num⟩ : ℚ)
        "Chair" [abcEntity] [xyzEntity]).2, e.subject_id ≠ abcEntity.id) ∧
     (resolve_entities_for_type jw0 (⟨1, 2, by norm_num, by norm_num⟩ : ℚ)
        "Chair" [abcEntity] [xyzEntity]).1.unresolved =
       (resolve_entities_for_type jw0 (⟨1, 2, by norm_num, by norm_num⟩ : ℚ)
          "Chair" ([abcEntity].erase abcEntity) [xyzEntity]).1.unresolved + 1 ∧
     (resolve_entities_for_type jw0 (⟨1, 2, by norm_num, by norm_num⟩ : ℚ)
        "Chair" [abcEntity] [xyzEntity]).1.errors = []) :=
  ⟨by decide, by decide, by decide,
   C4_below_threshold_unresolved jw0 (⟨1, 2, by norm_num, by norm_num⟩ : ℚ)
     "Chair" [abcEntity] [xyzEntity] abcEntity (by decide) (by decide) (by decide)⟩

theorem C10_empty_match_value_witness :
    (blankEntity ∈ [blankEntity]) ∧
    (([blankEntity].map Entity.id).Nodup) ∧
    (truthyOpt (subjectValue blankEntity (matchFieldFor "Chair")) = false) ∧
    ((0 : ℚ) < (⟨1, 2, by norm_num, by norm_num⟩ : ℚ)) ∧
    (calculate_similarity jw0 (some "") (some "") = 0 ∧
     find_best_match jw0 blankEntity [xyzEntity] (matchFieldFor "Chair") = (none, 0) ∧
     (resolve_entities_for_type jw0 (⟨1, 2, by norm_num, by norm_num⟩ : ℚ)
        "Chair" [blankEntity] [xyzEntity]).1.unresolved =
       (resolve_entities_for_type jw0 (⟨1, 2, by norm_num, by norm_num⟩ : ℚ)
          "Chair" ([blankEntity].erase blankEntity) [xyzEntity]).1.unresolved + 1) :=
  ⟨by decide, by decide, by decide, by decide,
   (C10_empty_match_value jw0 (⟨1, 2, by norm_num, by norm_num⟩ : ℚ) "Chair"
       [blankEntity] [xyzEntity] blankEntity (by decide) (by decide) (by decide)
       (by decide)).2.1,
   (C10_empty_match_value jw0 (⟨1, 2, by norm_num, by norm_num⟩ : ℚ) "Chair"
       [blankEntity] [xyzEntity] blankEntity (by decide) (by decide) (by decide)
       (by decide)).2.2.1,
   (C10_empty_match_value jw0 (⟨1, 2, by norm_num, by norm_num⟩ : ℚ) "Chair"
       [blankEntity] [xyzEntity] blankEntity (by decide) (by decide) (by decide)
       (by decide)).2.2.2.2⟩

end AgenticKG
